import Mathlib

/-!
Verification development for the firewall reconciliation module
(`library/firewall_lib.py`).  The Python source is shallowly embedded:

* `parse_port` / `parse_forward_port` model the two string parsers
  (firewall_lib.py lines 180-204), including Python's tuple-unpacking
  `ValueError` when `str.split` does not yield exactly the expected
  number of segments.
* `validateParams` models the pre-flight parameter checks of `main`
  (lines 271-343), in source order.
* `effectiveSetup` models the backend-connection prelude of `main`
  (lines 238, 345-420): offline fallback with its flag override,
  version gating and zone-existence checks.
* `reconcile` models the per-kind reconciliation loops (lines 424-668)
  over an explicit two-plane state, recording every accessor call in a
  trace.  `module.check_mode` (dry run) suppresses exactly the calls
  the source guards with `if not module.check_mode`.

The embedding keeps the Python names where Lean allows it.
-/

namespace FirewallLib

/-! ## Basic data model -/

/-- State `enabled` / `disabled` of the `state` module parameter. -/
inductive PresenceSt
  | enabled
  | disabled
deriving DecidableEq

/-- Python truthiness of an optional boolean module parameter:
`None` and `False` are falsy, `True` is truthy. -/
def truthy : Option Bool → Bool
  | some b => b
  | none => false

/-- Key of a forward-port entry: port range, protocol, optional
to-port and optional to-address (firewall_lib.py line 204). -/
abbrev FwdKey := String × String × Option String × Option String

/-- A configuration plane (runtime `fw` vs permanent `fw_settings`). -/
inductive Plane
  | runtime
  | permanent
deriving DecidableEq

/-- Identity key of a rule entry, as used by the presence queries and
mutations of the plane accessor. -/
inductive Key
  | service (s : String)
  | port (port protocol : String)
  | sourcePort (port protocol : String)
  | forwardPort (port protocol : String) (toPort toAddr : Option String)
  | masquerade
  | richRule (r : String)
  | source (s : String)
  | interface (i : String)
  | icmpBlock (t : String)
  | icmpBlockInversion
deriving DecidableEq

/-- One call issued to the plane accessor.  `query` records the boolean
the accessor returned; `add` records the timeout argument the source
passes for the runtime-plane kinds that accept one. -/
inductive Call
  | query (p : Plane) (k : Key) (result : Bool)
  | add (p : Plane) (k : Key) (timeout : Option Nat)
  | remove (p : Plane) (k : Key)
  | getTarget (result : String)
  | setTarget (t : String)
  | commit
deriving DecidableEq

/-- Zone state on one plane: one keyed collection per rule kind plus the
two whole-zone boolean toggles. -/
structure ZoneState where
  services : List String
  ports : List (String × String)
  sourcePorts : List (String × String)
  forwardPorts : List FwdKey
  masquerade : Bool
  richRules : List String
  sources : List String
  interfaces : List String
  icmpBlocks : List String
  icmpBlockInversion : Bool
deriving DecidableEq

/-- Both planes of the target zone, plus the permanent zone target
(`fw_settings.getTarget()`). -/
structure Planes where
  rt : ZoneState
  perm : ZoneState
  permTarget : String
deriving DecidableEq

/-! ## Parsing (firewall_lib.py lines 180-204) -/

/-- Failure mode of the parsing helpers: `formatError` is the module's
`fail_json` port-format error, `valueError` is an uncaught Python
`ValueError` raised by tuple unpacking of `str.split`'s result. -/
inductive ParseFailure
  | formatError (msg : String)
  | valueError
deriving DecidableEq

/-- CPython `str.split(sep)` for a one-character separator, on the
character list: splitting an empty string yields one empty segment, and
every occurrence of the separator starts a new segment. -/
def splitChars (sep : Char) : List Char → List (List Char)
  | [] => [[]]
  | c :: cs =>
    let r := splitChars sep cs
    if c = sep then [] :: r
    else
      match r with
      | [] => [[c]]
      | h :: t => (c :: h) :: t

/-- Python `item.split(sep)` for the one-character separators the
module uses (`"/"` and `";"`). -/
def pySplit (sep : Char) (s : String) : List String :=
  (splitChars sep s.toList).map fun cs => String.mk cs

/-- `parse_port` (lines 180-184): `_port, _protocol = item.split("/")`
unpacks only when the split yields exactly two segments, otherwise
Python raises `ValueError`.  The subsequent `if _protocol is None`
guard (line 182) can never fire since `str.split` returns strings, so
the `fail_json("improper port format (missing protocol?)")` branch is
unreachable. -/
def parse_port (item : String) : Except ParseFailure (String × String) :=
  match pySplit '/' item with
  | [_port, _protocol] => .ok (_port, _protocol)
  | _ => .error .valueError

/-- `parse_forward_port` (lines 187-204): splits on `;`, reaching
`fail_json` when the segment count is not 3; then a two-way tuple
unpack of `__port.split("/")` which, like `parse_port`, raises
`ValueError` rather than the format error when there is no `/`. -/
def parse_forward_port (item : String) :
    Except ParseFailure (String × String × Option String × Option String) :=
  match pySplit ';' item with
  | [__port, _to_port, _to_addr] =>
    match pySplit '/' __port with
    | [_port, _protocol] =>
      .ok (_port, _protocol,
        (if _to_port = "" then none else some _to_port),
        (if _to_addr = "" then none else some _to_addr))
    | _ => .error .valueError
  | _ => .error (.formatError "improper forward_port format")

/-! ## Module parameters and validation (lines 207-343) -/

/-- The module parameters after list parsing (ports parsed by
`parse_port`, forward ports by `parse_forward_port`, rich rules already
canonicalized by the external `Rich_Rule` collaborator), together with
Ansible's `module.check_mode` flag. -/
structure FWParams where
  service : List String
  port : List (String × String)
  source_port : List (String × String)
  forward_port : List FwdKey
  masquerade : Option Bool
  rich_rule : List String
  source : List String
  interface : List String
  icmp_block : List String
  icmp_block_inversion : Option Bool
  timeout : Nat
  target : Option String
  zone : Option String
  permanent : Option Bool
  runtime : Option Bool
  offline : Option Bool
  state : PresenceSt
  check_mode : Bool
deriving DecidableEq

/-- Validation failures of lines 271-343, grouped by the spec's names:
`noPlaneSelected` (line 277), `emptyRequest` (line 296),
`incompatibleWithDisabled` (lines 305, 307, 310) and
`timeoutNotApplicable` (lines 332, 337, 340, 343). -/
inductive VErr
  | noPlaneSelected
  | emptyRequest
  | incompatibleWithDisabled
  | timeoutNotApplicable
deriving DecidableEq

/-- Plane-selection failure (lines 273-279): reached only when
`permanent` is explicitly `False`, and fires only when `runtime` and
`offline` are both explicitly `False` (`x is not None and not x`). -/
def planeSelectionFails (p : FWParams) : Bool :=
  decide (p.permanent = some false) && decide (p.runtime = some false)
    && decide (p.offline = some false)

/-- Total number of rule entries across the eight keyed collections
(lines 286-294). -/
def FWParams.entryCount (p : FWParams) : Nat :=
  p.service.length + p.port.length + p.source_port.length + p.forward_port.length
    + p.rich_rule.length + p.source.length + p.interface.length + p.icmp_block.length

/-- Empty-request failure (lines 281-300). -/
def emptyRequestFails (p : FWParams) : Bool :=
  decide (p.masquerade = none) && decide (p.icmp_block_inversion = none)
    && decide (p.target = none) && decide (p.zone = none)
    && decide (p.entryCount = 0)

/-- The sum in `_timeout_ok` (lines 320-329): the six timeout-bearing
keyed kinds; `source` and `interface` are deliberately not included. -/
def FWParams.timeoutOkSum (p : FWParams) : Nat :=
  p.service.length + p.port.length + p.source_port.length + p.forward_port.length
    + p.rich_rule.length + p.icmp_block.length

/-- `_timeout_ok` (lines 320-329): `masquerade or (sum > 0)` under
Python truthiness. -/
def timeoutOk (p : FWParams) : Bool :=
  truthy p.masquerade || decide (0 < p.timeoutOkSum)

/-- The parameter checks of `main`, in source order (lines 271-343).
Returns the first failure, `none` when validation passes. -/
def validateParams (p : FWParams) : Option VErr :=
  if planeSelectionFails p then some .noPlaneSelected
  else if emptyRequestFails p then some .emptyRequest
  else if decide (p.state = .disabled)
      && (decide (0 < p.timeout) || truthy p.masquerade
          || truthy p.icmp_block_inversion) then
    some .incompatibleWithDisabled
  else if decide (0 < p.timeout) && !timeoutOk p
      && (decide (p.icmp_block_inversion ≠ none) || decide (p.source ≠ [])
          || decide (p.interface ≠ []) || decide (p.target ≠ none)) then
    some .timeoutNotApplicable
  else none

/-! ## Reconciliation state (lines 422-668) -/

/-- The effective parameters reaching the reconciliation loops after the
prelude resolved the plane flags: `runtime` and `permanent` are the
Python-truthy values of the (possibly overridden) flags. -/
structure EffP where
  service : List String
  port : List (String × String)
  source_port : List (String × String)
  forward_port : List FwdKey
  masquerade : Option Bool
  rich_rule : List String
  source : List String
  interface : List String
  icmp_block : List String
  icmp_block_inversion : Option Bool
  timeout : Nat
  target : Option String
  state : PresenceSt
  runtime : Bool
  permanent : Bool
  check_mode : Bool
deriving DecidableEq

/-- Running state of the reconciliation: both planes, the aggregate
`changed` flag (line 424) and the trace of accessor calls issued so
far. -/
structure RunState where
  planes : Planes
  changed : Bool
  trace : List Call
deriving DecidableEq

/-- Boolean membership used by the modelled presence queries. -/
def memB {κ : Type} [DecidableEq κ] (l : List κ) (x : κ) : Bool :=
  decide (x ∈ l)

/-- One `if gate and query-disagrees: [mutate]; changed = True` clause of
the source loops.  `want = true` is the `state == "enabled"` direction
(add when the query is false), `want = false` the `disabled` direction
(remove when the query is true).  The mutation is suppressed by
`module.check_mode`; `setsChanged` is true except for the one source
branch (runtime service removal, lines 438-440) that omits
`changed = True`. -/
def ensureClause (gate : Bool) (plane : Plane) (k : Key) (want : Bool)
    (qf : Planes → Bool) (mf : Planes → Planes)
    (addTimeout : Option Nat) (check_mode : Bool) (setsChanged : Bool)
    (s : RunState) : RunState :=
  if gate then
    let q := qf s.planes
    let s1 : RunState := { s with trace := s.trace ++ [Call.query plane k q] }
    if q != want then
      let s2 : RunState :=
        if !check_mode then
          { s1 with planes := mf s1.planes,
                    trace := s1.trace ++
                      [if want then Call.add plane k addTimeout
                       else Call.remove plane k] }
        else s1
      if setsChanged then { s2 with changed := true } else s2
    else s1
  else s

/-- The calls a single clause appends to the trace. -/
def clauseCalls (gate : Bool) (plane : Plane) (k : Key) (want : Bool)
    (q : Bool) (addTimeout : Option Nat) (check_mode : Bool) : List Call :=
  if gate then
    Call.query plane k q ::
      (if q != want then
        (if !check_mode then
          [if want then Call.add plane k addTimeout else Call.remove plane k]
         else [])
       else [])
  else []

/-! ## Generic keyed rule kind

Each of the seven keyed loops (service, port, source_port,
forward_port, rich_rule, source, interface, icmp_block) has the same
shape; a `KindSpec` records exactly where they differ in the source:
the identity key, which `ZoneState` collection they touch, whether the
runtime clause is gated on the `runtime` flag (all kinds except
`source`, lines 564-583), whether the runtime `add` passes `timeout`,
and whether the runtime removal sets `changed` (all kinds except
`service`, lines 438-440). -/
structure KindSpec (κ : Type) [DecidableEq κ] where
  key : κ → Key
  get : ZoneState → List κ
  set : ZoneState → List κ → ZoneState
  rtGate : EffP → Bool
  rtTimeout : EffP → Option Nat
  rtRemoveSetsChanged : Bool
  get_set : ∀ z l, get (set z l) = l
  set_set : ∀ z l l', set (set z l) l' = set z l'
  set_get : ∀ z, set z (get z) = z

/-- One iteration of a keyed loop: the runtime clause then the
permanent clause, in source order. -/
def genStep {κ : Type} [DecidableEq κ] (K : KindSpec κ) (P : EffP) (x : κ)
    (s : RunState) : RunState :=
  match P.state with
  | .enabled =>
    let s := ensureClause (K.rtGate P) .runtime (K.key x) true
      (fun pl => memB (K.get pl.rt) x)
      (fun pl => { pl with rt := K.set pl.rt (K.get pl.rt ++ [x]) })
      (K.rtTimeout P) P.check_mode true s
    ensureClause P.permanent .permanent (K.key x) true
      (fun pl => memB (K.get pl.perm) x)
      (fun pl => { pl with perm := K.set pl.perm (K.get pl.perm ++ [x]) })
      none P.check_mode true s
  | .disabled =>
    let s := ensureClause (K.rtGate P) .runtime (K.key x) false
      (fun pl => memB (K.get pl.rt) x)
      (fun pl => { pl with rt := K.set pl.rt ((K.get pl.rt).filter (fun y => decide (y ≠ x))) })
      none P.check_mode K.rtRemoveSetsChanged s
    ensureClause P.permanent .permanent (K.key x) false
      (fun pl => memB (K.get pl.perm) x)
      (fun pl => { pl with perm := K.set pl.perm ((K.get pl.perm).filter (fun y => decide (y ≠ x))) })
      none P.check_mode true s

/-- The `changed` contribution of one keyed-loop iteration, evaluated
against given plane states. -/
def genContrib {κ : Type} [DecidableEq κ] (K : KindSpec κ) (P : EffP) (x : κ)
    (pl : Planes) : Bool :=
  match P.state with
  | .enabled =>
      (K.rtGate P && !(memB (K.get pl.rt) x))
        || (P.permanent && !(memB (K.get pl.perm) x))
  | .disabled =>
      (K.rtGate P && memB (K.get pl.rt) x && K.rtRemoveSetsChanged)
        || (P.permanent && memB (K.get pl.perm) x)

/-- A whole keyed loop. -/
def kindFold {κ : Type} [DecidableEq κ] (K : KindSpec κ) (P : EffP)
    (l : List κ) (s : RunState) : RunState :=
  l.foldl (fun s x => genStep K P x s) s

/-- `service` loop, lines 427-444.  `rtRemoveSetsChanged := false`
records that the runtime removal branch (lines 438-440) is the one
add/remove branch in the source that does not set `changed = True`. -/
def serviceKind : KindSpec String where
  key := .service
  get z := z.services
  set z l := { z with services := l }
  rtGate P := P.runtime
  rtTimeout P := some P.timeout
  rtRemoveSetsChanged := false
  get_set _ _ := rfl
  set_set _ _ _ := rfl
  set_get _ := rfl

/-- `port` loop, lines 447-465. -/
def portKind : KindSpec (String × String) where
  key k := .port k.1 k.2
  get z := z.ports
  set z l := { z with ports := l }
  rtGate P := P.runtime
  rtTimeout P := some P.timeout
  rtRemoveSetsChanged := true
  get_set _ _ := rfl
  set_set _ _ _ := rfl
  set_get _ := rfl

/-- `source_port` loop, lines 468-486. -/
def sourcePortKind : KindSpec (String × String) where
  key k := .sourcePort k.1 k.2
  get z := z.sourcePorts
  set z l := { z with sourcePorts := l }
  rtGate P := P.runtime
  rtTimeout P := some P.timeout
  rtRemoveSetsChanged := true
  get_set _ _ := rfl
  set_set _ _ _ := rfl
  set_get _ := rfl

/-- `forward_port` loop, lines 489-520 (the enclosing
`if len(forward_port) > 0` is redundant for a loop). -/
def forwardPortKind : KindSpec FwdKey where
  key k := .forwardPort k.1 k.2.1 k.2.2.1 k.2.2.2
  get z := z.forwardPorts
  set z l := { z with forwardPorts := l }
  rtGate P := P.runtime
  rtTimeout P := some P.timeout
  rtRemoveSetsChanged := true
  get_set _ _ := rfl
  set_set _ _ _ := rfl
  set_get _ := rfl

/-- `rich_rule` loop, lines 544-562 (items already canonicalized by the
`Rich_Rule` collaborator at lines 252-258). -/
def richRuleKind : KindSpec String where
  key := .richRule
  get z := z.richRules
  set z l := { z with richRules := l }
  rtGate P := P.runtime
  rtTimeout P := some P.timeout
  rtRemoveSetsChanged := true
  get_set _ _ := rfl
  set_set _ _ _ := rfl
  set_get _ := rfl

/-- `source` loop, lines 564-583: the runtime clause is NOT gated on the
`runtime` flag (`if not fw.querySource(...)` with no `runtime and`),
and the runtime `addSource` takes no timeout. -/
def sourceKind : KindSpec String where
  key := .source
  get z := z.sources
  set z l := { z with sources := l }
  rtGate _ := true
  rtTimeout _ := none
  rtRemoveSetsChanged := true
  get_set _ _ := rfl
  set_set _ _ _ := rfl
  set_get _ := rfl

/-- `interface` loop, lines 586-604 (runtime `addInterface` takes no
timeout). -/
def interfaceKind : KindSpec String where
  key := .interface
  get z := z.interfaces
  set z l := { z with interfaces := l }
  rtGate P := P.runtime
  rtTimeout _ := none
  rtRemoveSetsChanged := true
  get_set _ _ := rfl
  set_set _ _ _ := rfl
  set_get _ := rfl

/-- `icmp_block` loop, lines 607-625. -/
def icmpBlockKind : KindSpec String where
  key := .icmpBlock
  get z := z.icmpBlocks
  set z l := { z with icmpBlocks := l }
  rtGate P := P.runtime
  rtTimeout P := some P.timeout
  rtRemoveSetsChanged := true
  get_set _ _ := rfl
  set_set _ _ _ := rfl
  set_get _ := rfl

/-! ## Whole-zone boolean toggles (masquerade, icmp_block_inversion) -/

/-- Descriptor of a whole-zone boolean toggle.  Both toggle blocks in
the source branch on the toggle's requested value, not on `state`. -/
structure ToggleSpec where
  key : Key
  get : ZoneState → Bool
  set : ZoneState → Bool → ZoneState
  rtTimeout : EffP → Option Nat
  get_set : ∀ z b, get (set z b) = b
  set_set : ∀ z b b', set (set z b) b' = set z b'
  set_get : ∀ z, set z (get z) = z

/-- A toggle block: the `if value:` add-direction clauses, else the
remove-direction clauses, runtime then permanent. -/
def toggleStep (T : ToggleSpec) (P : EffP) (v : Bool) (s : RunState) : RunState :=
  match v with
  | true =>
    let s := ensureClause P.runtime .runtime T.key true
      (fun pl => T.get pl.rt)
      (fun pl => { pl with rt := T.set pl.rt true })
      (T.rtTimeout P) P.check_mode true s
    ensureClause P.permanent .permanent T.key true
      (fun pl => T.get pl.perm)
      (fun pl => { pl with perm := T.set pl.perm true })
      none P.check_mode true s
  | false =>
    let s := ensureClause P.runtime .runtime T.key false
      (fun pl => T.get pl.rt)
      (fun pl => { pl with rt := T.set pl.rt false })
      none P.check_mode true s
    ensureClause P.permanent .permanent T.key false
      (fun pl => T.get pl.perm)
      (fun pl => { pl with perm := T.set pl.perm false })
      none P.check_mode true s

/-- `changed` contribution of a toggle block. -/
def toggleContrib (T : ToggleSpec) (P : EffP) (v : Bool) (pl : Planes) : Bool :=
  (P.runtime && (T.get pl.rt != v)) || (P.permanent && (T.get pl.perm != v))

/-- `masquerade` block, lines 523-541 (runtime `addMasquerade` passes
`timeout`). -/
def masqueradeToggle : ToggleSpec where
  key := .masquerade
  get z := z.masquerade
  set z b := { z with masquerade := b }
  rtTimeout P := some P.timeout
  get_set _ _ := rfl
  set_set _ _ _ := rfl
  set_get _ := rfl

/-- `icmp_block_inversion` block, lines 628-646
(`addIcmpBlockInversion` takes no timeout). -/
def icmpBlockInversionToggle : ToggleSpec where
  key := .icmpBlockInversion
  get z := z.icmpBlockInversion
  set z b := { z with icmpBlockInversion := b }
  rtTimeout _ := none
  get_set _ _ := rfl
  set_set _ _ _ := rfl
  set_get _ := rfl

/-- `target` block, lines 648-659: permanent-plane only, a direct
`getTarget() != target` comparison; the `enabled` and `disabled`
branches of the source are textually identical, so the model has a
single body. -/
def targetStep (P : EffP) (t : String) (s : RunState) : RunState :=
  if P.permanent then
    let cur := s.planes.permTarget
    let s1 : RunState := { s with trace := s.trace ++ [Call.getTarget cur] }
    if cur != t then
      let s2 : RunState :=
        if !P.check_mode then
          { s1 with planes := { s1.planes with permTarget := t },
                    trace := s1.trace ++ [Call.setTarget t] }
        else s1
      { s2 with changed := true }
    else s1
  else s

/-- `changed` contribution of the target block. -/
def targetContrib (P : EffP) (t : String) (pl : Planes) : Bool :=
  P.permanent && (pl.permTarget != t)

/-- A toggle block guarded by its optional parameter (`if masquerade is
not None:` / `if icmp_block_inversion is not None:`). -/
def toggleStage (T : ToggleSpec) (P : EffP) (v? : Option Bool) (s : RunState) : RunState :=
  match v? with
  | none => s
  | some v => toggleStep T P v s

/-- The target block guarded by its optional parameter
(`if target is not None:`). -/
def targetStage (P : EffP) (t? : Option String) (s : RunState) : RunState :=
  match t? with
  | none => s
  | some t => targetStep P t s

/-! ## The reconciliation loops (lines 424-668) -/

/-- The reconciliation body of `main`, in source kind order, ending with
the single permanent-plane settings write-back (lines 661-666,
modelled as `Call.commit`); note that the write-back is not guarded by
`module.check_mode`. -/
def reconcileLoops (P : EffP) (s : RunState) : RunState :=
  let s := kindFold serviceKind P P.service s
  let s := kindFold portKind P P.port s
  let s := kindFold sourcePortKind P P.source_port s
  let s := kindFold forwardPortKind P P.forward_port s
  let s := toggleStage masqueradeToggle P P.masquerade s
  let s := kindFold richRuleKind P P.rich_rule s
  let s := kindFold sourceKind P P.source s
  let s := kindFold interfaceKind P P.interface s
  let s := kindFold icmpBlockKind P P.icmp_block s
  let s := toggleStage icmpBlockInversionToggle P P.icmp_block_inversion s
  let s := targetStage P P.target s
  s

/-- The reconciliation body followed by the single permanent-plane
settings write-back (lines 661-666). -/
def reconcile (P : EffP) (s : RunState) : RunState :=
  let s := reconcileLoops P s
  if P.permanent then { s with trace := s.trace ++ [Call.commit] } else s

/-- Per-stage `changed` contributions, as functions of given plane
states. -/
def specService (P : EffP) (pl : Planes) : Bool :=
  P.service.any fun x => genContrib serviceKind P x pl

/-- `changed` contribution of the `port` loop. -/
def specPort (P : EffP) (pl : Planes) : Bool :=
  P.port.any fun x => genContrib portKind P x pl

/-- `changed` contribution of the `source_port` loop. -/
def specSourcePort (P : EffP) (pl : Planes) : Bool :=
  P.source_port.any fun x => genContrib sourcePortKind P x pl

/-- `changed` contribution of the `forward_port` loop. -/
def specForwardPort (P : EffP) (pl : Planes) : Bool :=
  P.forward_port.any fun x => genContrib forwardPortKind P x pl

/-- `changed` contribution of the `masquerade` block. -/
def specMasquerade (P : EffP) (pl : Planes) : Bool :=
  match P.masquerade with
  | none => false
  | some v => toggleContrib masqueradeToggle P v pl

/-- `changed` contribution of the `rich_rule` loop. -/
def specRichRule (P : EffP) (pl : Planes) : Bool :=
  P.rich_rule.any fun x => genContrib richRuleKind P x pl

/-- `changed` contribution of the `source` loop. -/
def specSource (P : EffP) (pl : Planes) : Bool :=
  P.source.any fun x => genContrib sourceKind P x pl

/-- `changed` contribution of the `interface` loop. -/
def specInterface (P : EffP) (pl : Planes) : Bool :=
  P.interface.any fun x => genContrib interfaceKind P x pl

/-- `changed` contribution of the `icmp_block` loop. -/
def specIcmpBlock (P : EffP) (pl : Planes) : Bool :=
  P.icmp_block.any fun x => genContrib icmpBlockKind P x pl

/-- `changed` contribution of the `icmp_block_inversion` block. -/
def specIcmpBlockInversion (P : EffP) (pl : Planes) : Bool :=
  match P.icmp_block_inversion with
  | none => false
  | some v => toggleContrib icmpBlockInversionToggle P v pl

/-- `changed` contribution of the `target` block. -/
def specTarget (P : EffP) (pl : Planes) : Bool :=
  match P.target with
  | none => false
  | some t => targetContrib P t pl

/-- The `changed` value the loops compute, as a function of the initial
plane states: the disjunction over all entries of the per-entry
disagreement contributions, in stage order. -/
def changedSpec (P : EffP) (pl : Planes) : Bool :=
  specService P pl || (specPort P pl || (specSourcePort P pl
    || (specForwardPort P pl || (specMasquerade P pl || (specRichRule P pl
    || (specSource P pl || (specInterface P pl || (specIcmpBlock P pl
    || (specIcmpBlockInversion P pl || specTarget P pl)))))))))

/-! ## Environment, connection prelude and entry point
(lines 238, 345-420, 668) -/

/-- The environment the module runs against: backend availability,
version gates, zone names and the current state of the target zone's
two planes. -/
structure World where
  hasFirewalld : Bool
  connected : Bool
  connectedVersionOk : Bool
  offlineVersionOk : Bool
  defaultZone : String
  runtimeZones : List String
  permanentZones : List String
  planes : Planes
deriving DecidableEq

/-- Terminal failures of `main` other than reconciliation itself. -/
inductive FWErr
  | noBackend
  | validation (e : VErr)
  | offlineDeclined
  | unsupportedVersion
  | unknownRuntimeZone
  | unknownPermanentZone
deriving DecidableEq

/-- Packs the request into the effective reconciliation parameters with
resolved boolean plane flags. -/
def mkEff (p : FWParams) (runtime permanent : Bool) : EffP where
  service := p.service
  port := p.port
  source_port := p.source_port
  forward_port := p.forward_port
  masquerade := p.masquerade
  rich_rule := p.rich_rule
  source := p.source
  interface := p.interface
  icmp_block := p.icmp_block
  icmp_block_inversion := p.icmp_block_inversion
  timeout := p.timeout
  target := p.target
  state := p.state
  runtime := runtime
  permanent := permanent
  check_mode := p.check_mode

/-- The prelude of `main`: backend import check (line 238), validation
(lines 271-343), connection with the offline fallback that overrides
`runtime`/`permanent` (lines 350-380), version gates (lines 363, 383)
and the zone-existence checks (lines 395-417).  When `permanent` is
unset, `runtime` is forced to `True` (lines 271-272). -/
def effectiveSetup (p : FWParams) (w : World) : Except FWErr EffP :=
  if !w.hasFirewalld then .error .noBackend
  else
    match validateParams p with
    | some e => .error (.validation e)
    | none =>
      let runtime0 : Option Bool := if p.permanent = none then some true else p.runtime
      if !w.connected then
        if !(truthy p.offline) then .error .offlineDeclined
        else if !w.offlineVersionOk then .error .unsupportedVersion
        else
          let zone := p.zone.getD w.defaultZone
          if p.zone.isSome && !(w.permanentZones.contains zone) then
            .error .unknownPermanentZone
          else .ok (mkEff p false true)
      else
        if !w.connectedVersionOk then .error .unsupportedVersion
        else
          let runtimeB := truthy runtime0
          let permanentB := truthy p.permanent
          let zone := p.zone.getD w.defaultZone
          if p.zone.isSome && runtimeB && !(w.runtimeZones.contains zone) then
            .error .unknownRuntimeZone
          else if p.zone.isSome && permanentB && !(w.permanentZones.contains zone) then
            .error .unknownPermanentZone
          else .ok (mkEff p runtimeB permanentB)

deriving instance DecidableEq for Except

/-- Observable result of one invocation: the module's exit (error or
`changed`), the full accessor-call trace and the final plane states. -/
structure MainResult where
  outcome : Except FWErr Bool
  trace : List Call
  planes : Planes
deriving DecidableEq

/-- The whole `main`: prelude, then the reconciliation loops starting
from `changed = False` (line 424), then `module.exit_json(changed=...)`
(line 668).  A prelude failure aborts before any accessor call. -/
def firewallMain (p : FWParams) (w : World) : MainResult :=
  match effectiveSetup p w with
  | .error e => { outcome := .error e, trace := [], planes := w.planes }
  | .ok P =>
    let r := reconcile P { planes := w.planes, changed := false, trace := [] }
    { outcome := .ok r.changed, trace := r.trace, planes := r.planes }

/-- Replace the plane states of a world (used to chain invocations). -/
def World.withPlanes (w : World) (pl : Planes) : World :=
  { w with planes := pl }

/-! ## Basic lemmas about membership and clauses -/

theorem memB_append_single {κ : Type} [DecidableEq κ] (l : List κ) (a b : κ) :
    memB (l ++ [a]) b = (memB l b || decide (b = a)) := by
  by_cases h1 : b = a <;> by_cases h2 : b ∈ l <;>
    simp [memB, List.mem_append, h1, h2]

theorem memB_filter_ne {κ : Type} [DecidableEq κ] (l : List κ) (a b : κ) :
    memB (l.filter (fun y => decide (y ≠ a))) b = (decide (b ≠ a) && memB l b) := by
  by_cases h1 : b = a <;> by_cases h2 : b ∈ l <;>
    simp [memB, List.mem_filter, h1, h2]

theorem memB_filter_ne' {κ : Type} [DecidableEq κ] (l : List κ) (a b : κ) :
    memB (l.filter fun y => !decide (y = a)) b = (!decide (b = a) && memB l b) := by
  by_cases h1 : b = a <;> by_cases h2 : b ∈ l <;>
    simp [memB, List.mem_filter, h1, h2]

theorem memB_append_mono {κ : Type} [DecidableEq κ] (l : List κ) (a b : κ)
    (h : memB l b = true) : memB (l ++ [a]) b = true := by
  rw [memB_append_single, h]; rfl

theorem memB_append_self {κ : Type} [DecidableEq κ] (l : List κ) (a : κ) :
    memB (l ++ [a]) a = true := by
  rw [memB_append_single]; simp

theorem ensureClause_changed (gate : Bool) (plane : Plane) (k : Key) (want : Bool)
    (qf : Planes → Bool) (mf : Planes → Planes) (addTimeout : Option Nat)
    (cm setsChanged : Bool) (s : RunState) :
    (ensureClause gate plane k want qf mf addTimeout cm setsChanged s).changed
      = (s.changed || (gate && (qf s.planes != want) && setsChanged)) := by
  unfold ensureClause
  cases gate
  · simp
  · cases h : qf s.planes != want
    · simp [h]
    · cases cm <;> cases setsChanged <;> simp [h]

theorem ensureClause_planes (gate : Bool) (plane : Plane) (k : Key) (want : Bool)
    (qf : Planes → Bool) (mf : Planes → Planes) (addTimeout : Option Nat)
    (cm setsChanged : Bool) (s : RunState) :
    (ensureClause gate plane k want qf mf addTimeout cm setsChanged s).planes
      = (if gate && (qf s.planes != want) && !cm then mf s.planes else s.planes) := by
  unfold ensureClause
  cases gate
  · simp
  · cases h : qf s.planes != want <;> cases cm <;> cases setsChanged <;> simp [h]

theorem ensureClause_trace (gate : Bool) (plane : Plane) (k : Key) (want : Bool)
    (qf : Planes → Bool) (mf : Planes → Planes) (addTimeout : Option Nat)
    (cm setsChanged : Bool) (s : RunState) :
    (ensureClause gate plane k want qf mf addTimeout cm setsChanged s).trace
      = s.trace ++ clauseCalls gate plane k want (qf s.planes) addTimeout cm := by
  unfold ensureClause clauseCalls
  cases gate
  · simp
  · cases h : qf s.planes != want <;> cases cm <;> cases setsChanged <;>
      simp [h, List.append_assoc]

theorem clauseCalls_mem {gate : Bool} {plane : Plane} {k : Key} {want q : Bool}
    {addTimeout : Option Nat} {cm : Bool} (c : Call)
    (h : c ∈ clauseCalls gate plane k want q addTimeout cm) :
    gate = true ∧ (c = Call.query plane k q
      ∨ (cm = false ∧ (c = Call.add plane k addTimeout ∨ c = Call.remove plane k))) := by
  unfold clauseCalls at h
  cases gate
  · simp at h
  · refine ⟨rfl, ?_⟩
    cases hq : q != want
    · simp [hq] at h
      exact Or.inl h
    · cases cm
      · simp [hq] at h
        rcases h with h | h
        · exact Or.inl h
        · cases want
          · simp only [Bool.false_eq_true, if_false] at h
            exact Or.inr ⟨rfl, Or.inr h⟩
          · simp only [if_true] at h
            exact Or.inr ⟨rfl, Or.inl h⟩
      · simp [hq] at h
        exact Or.inl h

/-! ## Call classifiers and trace extensions -/

/-- Is this call the permanent-plane settings write-back? -/
def isCommit : Call → Bool
  | .commit => true
  | _ => false

/-- Is this call a mutation (add / remove / setTarget)? -/
def isMutating : Call → Bool
  | .add _ _ _ => true
  | .remove _ _ => true
  | .setTarget _ => true
  | _ => false

/-- Is this call a presence query? -/
def isQuery : Call → Bool
  | .query _ _ _ => true
  | _ => false

/-- Does this call go to the runtime plane (the live `fw` object)? -/
def onRuntime : Call → Bool
  | .query .runtime _ _ => true
  | .add .runtime _ _ => true
  | .remove .runtime _ => true
  | _ => false

/-- Does this call go to the permanent plane (the `fw_settings` object
or its write-back)? -/
def onPermanent : Call → Bool
  | .query .permanent _ _ => true
  | .add .permanent _ _ => true
  | .remove .permanent _ => true
  | .getTarget _ => true
  | .setTarget _ => true
  | .commit => true
  | _ => false

/-- `s'` extends `s`'s trace only with calls satisfying `ok`. -/
def TraceExt (ok : Call → Bool) (s s' : RunState) : Prop :=
  ∃ ext, s'.trace = s.trace ++ ext ∧ ∀ c ∈ ext, ok c = true

theorem traceExt_refl (ok : Call → Bool) (s : RunState) : TraceExt ok s s :=
  ⟨[], by simp, by simp⟩

theorem traceExt_trans {ok : Call → Bool} {s t u : RunState}
    (h1 : TraceExt ok s t) (h2 : TraceExt ok t u) : TraceExt ok s u := by
  obtain ⟨e1, he1, ha1⟩ := h1
  obtain ⟨e2, he2, ha2⟩ := h2
  refine ⟨e1 ++ e2, by rw [he2, he1, List.append_assoc], ?_⟩
  intro c hc
  rcases List.mem_append.mp hc with h | h
  · exact ha1 c h
  · exact ha2 c h

theorem traceExt_mono {ok1 ok2 : Call → Bool} {s s' : RunState}
    (himp : ∀ c, ok1 c = true → ok2 c = true) (h : TraceExt ok1 s s') :
    TraceExt ok2 s s' := by
  obtain ⟨e, he, ha⟩ := h
  exact ⟨e, he, fun c hc => himp c (ha c hc)⟩

theorem traceExt_of_clause {ok : Call → Bool} (gate : Bool) (plane : Plane)
    (k : Key) (want : Bool) (qf : Planes → Bool) (mf : Planes → Planes)
    (addTimeout : Option Nat) (cm setsChanged : Bool) (s : RunState)
    (h : ∀ c ∈ clauseCalls gate plane k want (qf s.planes) addTimeout cm, ok c = true) :
    TraceExt ok s (ensureClause gate plane k want qf mf addTimeout cm setsChanged s) :=
  ⟨_, ensureClause_trace gate plane k want qf mf addTimeout cm setsChanged s, h⟩

/-- A relation preserved by every step is preserved by the fold. -/
theorem foldl_invariant {κ : Type} (step : κ → RunState → RunState)
    (Q : RunState → RunState → Prop)
    (hrefl : ∀ s, Q s s)
    (htrans : ∀ a b c, Q a b → Q b c → Q a c)
    (hstep : ∀ x s, Q s (step x s)) :
    ∀ (l : List κ) (s : RunState), Q s (l.foldl (fun s x => step x s) s) := by
  intro l
  induction l with
  | nil => intro s; exact hrefl s
  | cons x t ih => intro s; exact htrans _ _ _ (hstep x s) (ih (step x s))

/-! ## Boolean bookkeeping for the `changed` disjunction -/

theorem any_ite_of_eq_false {κ : Type} [DecidableEq κ] (t : List κ) (f : κ → Bool)
    (x : κ) (hfx : f x = false) :
    (t.any fun y => if y = x then false else f y) = t.any f := by
  induction t with
  | nil => rfl
  | cons a t ih =>
    simp only [List.any_cons, ih]
    by_cases hax : a = x
    · subst hax; simp [hfx]
    · simp [hax]

theorem any_ite_absorb {κ : Type} [DecidableEq κ] (t : List κ) (f : κ → Bool)
    (x : κ) (c : Bool) (h : f x = true → c = true) :
    (c || t.any fun y => if y = x then false else f y) = (c || t.any f) := by
  cases hc : c
  · have hfx : f x = false := by
      cases hfx : f x
      · rfl
      · rw [h hfx] at hc; cases hc
    rw [any_ite_of_eq_false t f x hfx]
  · simp

/-! ## Lemmas about one keyed-loop iteration -/

theorem genStep_changed {κ : Type} [DecidableEq κ] (K : KindSpec κ) (P : EffP)
    (x : κ) (s : RunState) :
    (genStep K P x s).changed = (s.changed || genContrib K P x s.planes) := by
  cases hst : P.state <;>
    simp only [genStep, genContrib, hst, ensureClause_changed, ensureClause_planes] <;>
    cases hg : K.rtGate P <;> cases h1 : memB (K.get s.planes.rt) x <;>
    cases hp : P.permanent <;> cases hcm : P.check_mode <;>
    cases hrs : K.rtRemoveSetsChanged <;>
    simp [hg, h1, hp, hcm, hrs, K.get_set, memB_append_self, memB_filter_ne,
      Bool.or_assoc]

theorem genStep_planes_dry {κ : Type} [DecidableEq κ] (K : KindSpec κ) (P : EffP)
    (x : κ) (s : RunState) (hcm : P.check_mode = true) :
    (genStep K P x s).planes = s.planes := by
  cases hst : P.state <;>
    simp only [genStep, hst, ensureClause_planes] <;>
    simp [hcm]

theorem genContrib_after {κ : Type} [DecidableEq κ] (K : KindSpec κ) (P : EffP)
    (x y : κ) (s : RunState) (hcm : P.check_mode = false) :
    genContrib K P y (genStep K P x s).planes
      = (if y = x then false else genContrib K P y s.planes) := by
  cases hst : P.state <;>
    simp only [genStep, genContrib, hst, ensureClause_planes] <;>
    cases hg : K.rtGate P <;> cases h1 : memB (K.get s.planes.rt) x <;>
    cases hp : P.permanent <;> cases h2 : memB (K.get s.planes.perm) x <;>
    cases hrs : K.rtRemoveSetsChanged <;>
    by_cases hyx : y = x <;>
    simp [hg, h1, hp, h2, hrs, hcm, hyx, K.get_set, memB_append_single,
      memB_filter_ne, memB_filter_ne']

theorem kindFold_nil {κ : Type} [DecidableEq κ] (K : KindSpec κ) (P : EffP)
    (s : RunState) : kindFold K P [] s = s := rfl

theorem kindFold_cons {κ : Type} [DecidableEq κ] (K : KindSpec κ) (P : EffP)
    (x : κ) (t : List κ) (s : RunState) :
    kindFold K P (x :: t) s = kindFold K P t (genStep K P x s) := rfl

theorem kindFold_changed {κ : Type} [DecidableEq κ] (K : KindSpec κ) (P : EffP)
    (l : List κ) (s : RunState) :
    (kindFold K P l s).changed
      = (s.changed || l.any fun x => genContrib K P x s.planes) := by
  induction l generalizing s with
  | nil => simp [kindFold]
  | cons x t ih =>
    rw [kindFold_cons, ih, genStep_changed]
    cases hcm : P.check_mode
    · have hfun : (fun y => genContrib K P y (genStep K P x s).planes)
          = fun y => if y = x then false else genContrib K P y s.planes := by
        funext y
        exact genContrib_after K P x y s hcm
      rw [hfun, any_ite_absorb t _ x (s.changed || genContrib K P x s.planes)
        (fun h => by rw [h]; simp)]
      simp [Bool.or_assoc]
    · rw [genStep_planes_dry K P x s hcm]
      simp [Bool.or_assoc]

/-! ## Which plane fields a keyed loop can touch -/

/-- `pl` with only kind `K`'s collections replaced. -/
def withKind {κ : Type} [DecidableEq κ] (K : KindSpec κ) (pl : Planes)
    (a b : List κ) : Planes :=
  { pl with rt := K.set pl.rt a, perm := K.set pl.perm b }

theorem withKind_withKind {κ : Type} [DecidableEq κ] (K : KindSpec κ) (pl : Planes)
    (a b a' b' : List κ) :
    withKind K (withKind K pl a b) a' b' = withKind K pl a' b' := by
  simp [withKind, K.set_set]

theorem withKind_self {κ : Type} [DecidableEq κ] (K : KindSpec κ) (pl : Planes) :
    withKind K pl (K.get pl.rt) (K.get pl.perm) = pl := by
  simp [withKind, K.set_get]

theorem genStep_planes_with {κ : Type} [DecidableEq κ] (K : KindSpec κ) (P : EffP)
    (x : κ) (s : RunState) :
    (genStep K P x s).planes
      = withKind K s.planes (K.get (genStep K P x s).planes.rt)
          (K.get (genStep K P x s).planes.perm) := by
  cases hst : P.state <;>
    simp only [genStep, hst, ensureClause_planes] <;>
    split <;> split <;>
    simp [withKind, K.get_set, K.set_set, K.set_get]

theorem kindFold_planes_with {κ : Type} [DecidableEq κ] (K : KindSpec κ) (P : EffP)
    (l : List κ) (s : RunState) :
    (kindFold K P l s).planes
      = withKind K s.planes (K.get (kindFold K P l s).planes.rt)
          (K.get (kindFold K P l s).planes.perm) := by
  induction l generalizing s with
  | nil => simp [kindFold, withKind_self]
  | cons x t ih =>
    rw [kindFold_cons]
    conv_lhs => rw [ih (genStep K P x s), genStep_planes_with]
    rw [withKind_withKind]

/-! ## Enabled runs establish presence (for idempotence) -/

theorem genStep_mem_mono_rt {κ : Type} [DecidableEq κ] (K : KindSpec κ) (P : EffP)
    (x y : κ) (s : RunState) (hst : P.state = .enabled)
    (h : memB (K.get s.planes.rt) y = true) :
    memB (K.get (genStep K P x s).planes.rt) y = true := by
  simp only [genStep, hst, ensureClause_planes]
  split <;> split <;> simp [K.get_set, memB_append_mono, h]

theorem genStep_mem_mono_perm {κ : Type} [DecidableEq κ] (K : KindSpec κ) (P : EffP)
    (x y : κ) (s : RunState) (hst : P.state = .enabled)
    (h : memB (K.get s.planes.perm) y = true) :
    memB (K.get (genStep K P x s).planes.perm) y = true := by
  simp only [genStep, hst, ensureClause_planes]
  split <;> split <;> simp [K.get_set, memB_append_mono, h]

theorem genStep_establishes_rt {κ : Type} [DecidableEq κ] (K : KindSpec κ) (P : EffP)
    (x : κ) (s : RunState) (hst : P.state = .enabled) (hcm : P.check_mode = false)
    (hg : K.rtGate P = true) :
    memB (K.get (genStep K P x s).planes.rt) x = true := by
  simp only [genStep, hst, ensureClause_planes]
  cases h1 : memB (K.get s.planes.rt) x <;>
    split <;> split <;> simp_all [K.get_set, memB_append_self]

theorem genStep_establishes_perm {κ : Type} [DecidableEq κ] (K : KindSpec κ) (P : EffP)
    (x : κ) (s : RunState) (hst : P.state = .enabled) (hcm : P.check_mode = false)
    (hp : P.permanent = true) :
    memB (K.get (genStep K P x s).planes.perm) x = true := by
  simp only [genStep, hst, ensureClause_planes]
  cases h2 : memB (K.get s.planes.perm) x <;>
    split <;> split <;> simp_all [K.get_set, memB_append_self]

theorem kindFold_mem_mono_rt {κ : Type} [DecidableEq κ] (K : KindSpec κ) (P : EffP)
    (l : List κ) (s : RunState) (y : κ) (hst : P.state = .enabled)
    (h : memB (K.get s.planes.rt) y = true) :
    memB (K.get (kindFold K P l s).planes.rt) y = true := by
  induction l generalizing s with
  | nil => exact h
  | cons a t ih =>
    rw [kindFold_cons]
    exact ih _ (genStep_mem_mono_rt K P a y s hst h)

theorem kindFold_mem_mono_perm {κ : Type} [DecidableEq κ] (K : KindSpec κ) (P : EffP)
    (l : List κ) (s : RunState) (y : κ) (hst : P.state = .enabled)
    (h : memB (K.get s.planes.perm) y = true) :
    memB (K.get (kindFold K P l s).planes.perm) y = true := by
  induction l generalizing s with
  | nil => exact h
  | cons a t ih =>
    rw [kindFold_cons]
    exact ih _ (genStep_mem_mono_perm K P a y s hst h)

theorem kindFold_post_contrib {κ : Type} [DecidableEq κ] (K : KindSpec κ) (P : EffP)
    (l : List κ) (s : RunState) (hst : P.state = .enabled)
    (hcm : P.check_mode = false) :
    ∀ x ∈ l, genContrib K P x (kindFold K P l s).planes = false := by
  induction l generalizing s with
  | nil => intro x hx; cases hx
  | cons a t ih =>
    intro x hx
    rw [kindFold_cons]
    rcases List.mem_cons.mp hx with h | h
    · subst h
      have hrt : K.rtGate P = true →
          memB (K.get (kindFold K P t (genStep K P x s)).planes.rt) x = true :=
        fun hg => kindFold_mem_mono_rt K P t _ x hst
          (genStep_establishes_rt K P x s hst hcm hg)
      have hperm : P.permanent = true →
          memB (K.get (kindFold K P t (genStep K P x s)).planes.perm) x = true :=
        fun hp => kindFold_mem_mono_perm K P t _ x hst
          (genStep_establishes_perm K P x s hst hcm hp)
      simp only [genContrib, hst]
      cases hg : K.rtGate P <;> cases hp : P.permanent <;>
        simp [hg, hp, hrt, hperm]
    · exact ih (genStep K P a s) x h

/-! ## Lemmas about the toggle blocks -/

theorem toggleStep_changed (T : ToggleSpec) (P : EffP) (v : Bool) (s : RunState) :
    (toggleStep T P v s).changed = (s.changed || toggleContrib T P v s.planes) := by
  cases v <;>
    simp only [toggleStep, toggleContrib] <;>
    cases hr : P.runtime <;> cases h1 : T.get s.planes.rt <;>
    cases hp : P.permanent <;> cases h2 : T.get s.planes.perm <;>
    cases hcm : P.check_mode <;>
    simp [ensureClause_changed, ensureClause_planes, hr, h1, hp, h2, hcm,
      T.get_set, Bool.or_assoc]

theorem toggleStep_planes_dry (T : ToggleSpec) (P : EffP) (v : Bool) (s : RunState)
    (hcm : P.check_mode = true) :
    (toggleStep T P v s).planes = s.planes := by
  cases v <;> simp only [toggleStep] <;>
    simp [ensureClause_planes, hcm]

/-- `pl` with only toggle `T`'s field replaced. -/
def withToggle (T : ToggleSpec) (pl : Planes) (a b : Bool) : Planes :=
  { pl with rt := T.set pl.rt a, perm := T.set pl.perm b }

theorem toggleStep_planes_with (T : ToggleSpec) (P : EffP) (v : Bool) (s : RunState) :
    (toggleStep T P v s).planes
      = withToggle T s.planes (T.get (toggleStep T P v s).planes.rt)
          (T.get (toggleStep T P v s).planes.perm) := by
  cases v <;> simp only [toggleStep, ensureClause_planes] <;>
    split <;> split <;>
    simp [withToggle, T.get_set, T.set_set, T.set_get]

theorem toggleStep_post (T : ToggleSpec) (P : EffP) (v : Bool) (s : RunState)
    (hcm : P.check_mode = false) :
    toggleContrib T P v (toggleStep T P v s).planes = false := by
  cases v <;>
    simp only [toggleStep, toggleContrib] <;>
    cases hr : P.runtime <;> cases h1 : T.get s.planes.rt <;>
    cases hp : P.permanent <;> cases h2 : T.get s.planes.perm <;>
    simp [ensureClause_planes, hr, h1, hp, h2, hcm, T.get_set]

/-! ## Lemmas about the target block -/

theorem targetStep_changed (P : EffP) (t : String) (s : RunState) :
    (targetStep P t s).changed = (s.changed || targetContrib P t s.planes) := by
  simp only [targetStep, targetContrib]
  cases hp : P.permanent <;> cases h1 : s.planes.permTarget != t <;>
    cases hcm : P.check_mode <;> simp [hp, h1, hcm]

theorem targetStep_planes_dry (P : EffP) (t : String) (s : RunState)
    (hcm : P.check_mode = true) :
    (targetStep P t s).planes = s.planes := by
  simp only [targetStep]
  cases hp : P.permanent <;> cases h1 : s.planes.permTarget != t <;>
    simp [hp, h1, hcm]

theorem targetStep_planes_with (P : EffP) (t : String) (s : RunState) :
    (targetStep P t s).planes
      = { s.planes with permTarget := (targetStep P t s).planes.permTarget } := by
  simp only [targetStep]
  cases hp : P.permanent <;> cases h1 : s.planes.permTarget != t <;>
    cases hcm : P.check_mode <;> simp [hp, h1, hcm]

theorem targetStep_post (P : EffP) (t : String) (s : RunState)
    (hcm : P.check_mode = false) :
    targetContrib P t (targetStep P t s).planes = false := by
  simp only [targetStep, targetContrib]
  cases hp : P.permanent <;> cases h1 : s.planes.permTarget != t <;>
    simp [hp, h1, hcm]

/-! ## What calls each stage may issue -/

/-- Calls a stage with runtime gate `rtg` and permanent gate `pm` may
issue under check mode `cm`: never a commit, no mutation under check
mode, runtime calls only when the runtime gate is on, permanent calls
only when the permanent gate is on. -/
def gateCallOK (rtg pm cm : Bool) (c : Call) : Bool :=
  !isCommit c && (!cm || !isMutating c) && (rtg || !onRuntime c)
    && (pm || !onPermanent c)

/-- The part of `gateCallOK` shared by every loop stage (the `source`
loop ignores the runtime gate, so the runtime conjunct is dropped
here). -/
def bodyCallOK (pm cm : Bool) (c : Call) : Bool :=
  !isCommit c && (!cm || !isMutating c) && (pm || !onPermanent c)

theorem gateCallOK_le_body (rtg pm cm : Bool) (c : Call)
    (h : gateCallOK rtg pm cm c = true) : bodyCallOK pm cm c = true := by
  simp only [gateCallOK, Bool.and_eq_true] at h
  simp only [bodyCallOK, Bool.and_eq_true]
  exact ⟨⟨h.1.1.1, h.1.1.2⟩, h.2⟩

theorem clauseCalls_ok_runtime (rtg pm cm : Bool) (k : Key) (want q : Bool)
    (addTimeout : Option Nat) :
    ∀ c ∈ clauseCalls rtg .runtime k want q addTimeout cm,
      gateCallOK rtg pm cm c = true := by
  intro c hc
  obtain ⟨hg, h⟩ := clauseCalls_mem c hc
  rcases h with h | ⟨hcm, h⟩
  · subst h
    simp [gateCallOK, isCommit, isMutating, onRuntime, onPermanent, hg]
  · rcases h with h | h <;> subst h <;>
      simp [gateCallOK, isCommit, isMutating, onRuntime, onPermanent, hg, hcm]

theorem clauseCalls_ok_permanent (rtg pm cm : Bool) (k : Key) (want q : Bool)
    (addTimeout : Option Nat) :
    ∀ c ∈ clauseCalls pm .permanent k want q addTimeout cm,
      gateCallOK rtg pm cm c = true := by
  intro c hc
  obtain ⟨hg, h⟩ := clauseCalls_mem c hc
  rcases h with h | ⟨hcm, h⟩
  · subst h
    simp [gateCallOK, isCommit, isMutating, onRuntime, onPermanent, hg]
  · rcases h with h | h <;> subst h <;>
      simp [gateCallOK, isCommit, isMutating, onRuntime, onPermanent, hg, hcm]

theorem genStep_traceExt {κ : Type} [DecidableEq κ] (K : KindSpec κ) (P : EffP)
    (x : κ) (s : RunState) :
    TraceExt (gateCallOK (K.rtGate P) P.permanent P.check_mode) s (genStep K P x s) := by
  cases hst : P.state <;>
    simp only [genStep, hst] <;>
    exact traceExt_trans
      (traceExt_of_clause _ _ _ _ _ _ _ _ _ _
        (clauseCalls_ok_runtime (K.rtGate P) P.permanent P.check_mode _ _ _ _))
      (traceExt_of_clause _ _ _ _ _ _ _ _ _ _
        (clauseCalls_ok_permanent (K.rtGate P) P.permanent P.check_mode _ _ _ _))

theorem kindFold_traceExt {κ : Type} [DecidableEq κ] (K : KindSpec κ) (P : EffP)
    (l : List κ) (s : RunState) :
    TraceExt (gateCallOK (K.rtGate P) P.permanent P.check_mode) s (kindFold K P l s) :=
  foldl_invariant (fun x s => genStep K P x s) _
    (traceExt_refl _) (fun _ _ _ => traceExt_trans)
    (fun x s => genStep_traceExt K P x s) l s

theorem toggleStep_traceExt (T : ToggleSpec) (P : EffP) (v : Bool) (s : RunState) :
    TraceExt (gateCallOK P.runtime P.permanent P.check_mode) s (toggleStep T P v s) := by
  cases v <;>
    simp only [toggleStep] <;>
    exact traceExt_trans
      (traceExt_of_clause _ _ _ _ _ _ _ _ _ _
        (clauseCalls_ok_runtime P.runtime P.permanent P.check_mode _ _ _ _))
      (traceExt_of_clause _ _ _ _ _ _ _ _ _ _
        (clauseCalls_ok_permanent P.runtime P.permanent P.check_mode _ _ _ _))

theorem targetStep_traceExt (rtg : Bool) (P : EffP) (t : String) (s : RunState) :
    TraceExt (gateCallOK rtg P.permanent P.check_mode) s (targetStep P t s) := by
  simp only [targetStep]
  cases hp : P.permanent
  · exact traceExt_refl _ _
  · cases h1 : s.planes.permTarget != t
    · refine ⟨[Call.getTarget s.planes.permTarget], by simp [hp, h1], ?_⟩
      intro c hc
      simp at hc
      subst hc
      simp [gateCallOK, isCommit, isMutating, onRuntime, onPermanent, hp]
    · cases hcm : P.check_mode
      · refine ⟨[Call.getTarget s.planes.permTarget, Call.setTarget t],
          by simp [hp, h1, hcm, List.append_assoc], ?_⟩
        intro c hc
        rcases List.mem_cons.mp hc with h | h
        · subst h
          simp [gateCallOK, isCommit, isMutating, onRuntime, onPermanent, hp]
        · simp at h
          subst h
          simp [gateCallOK, isCommit, isMutating, onRuntime, onPermanent, hp, hcm]
      · refine ⟨[Call.getTarget s.planes.permTarget], by simp [hp, h1, hcm], ?_⟩
        intro c hc
        simp at hc
        subst hc
        simp [gateCallOK, isCommit, isMutating, onRuntime, onPermanent, hp]

theorem reconcileLoops_traceExt (P : EffP) (s : RunState) :
    TraceExt (bodyCallOK P.permanent P.check_mode) s (reconcileLoops P s) := by
  have hk : ∀ {κ : Type} (inst : DecidableEq κ) (K : KindSpec κ) (l : List κ)
      (s : RunState),
      TraceExt (bodyCallOK P.permanent P.check_mode) s (kindFold K P l s) :=
    fun _ K l s => traceExt_mono
      (fun c => gateCallOK_le_body (K.rtGate P) P.permanent P.check_mode c)
      (kindFold_traceExt K P l s)
  have ht : ∀ (T : ToggleSpec) (v? : Option Bool) (s : RunState),
      TraceExt (bodyCallOK P.permanent P.check_mode) s (toggleStage T P v? s) := by
    intro T v? s
    cases v?
    · exact traceExt_refl _ _
    · exact traceExt_mono
        (fun c => gateCallOK_le_body P.runtime P.permanent P.check_mode c)
        (toggleStep_traceExt T P _ s)
  have htg : ∀ (t? : Option String) (s : RunState),
      TraceExt (bodyCallOK P.permanent P.check_mode) s (targetStage P t? s) := by
    intro t? s
    cases t?
    · exact traceExt_refl _ _
    · exact traceExt_mono
        (fun c => gateCallOK_le_body true P.permanent P.check_mode c)
        (targetStep_traceExt true P _ s)
  simp only [reconcileLoops]
  exact traceExt_trans (hk _ serviceKind _ _)
    (traceExt_trans (hk _ portKind _ _)
    (traceExt_trans (hk _ sourcePortKind _ _)
    (traceExt_trans (hk _ forwardPortKind _ _)
    (traceExt_trans (ht masqueradeToggle P.masquerade _)
    (traceExt_trans (hk _ richRuleKind _ _)
    (traceExt_trans (hk _ sourceKind _ _)
    (traceExt_trans (hk _ interfaceKind _ _)
    (traceExt_trans (hk _ icmpBlockKind _ _)
    (traceExt_trans (ht icmpBlockInversionToggle P.icmp_block_inversion _)
      (htg P.target _))))))))))

theorem reconcile_trace (P : EffP) (s : RunState) :
    ∃ body, (reconcile P s).trace
        = s.trace ++ body ++ (if P.permanent then [Call.commit] else [])
      ∧ ∀ c ∈ body, bodyCallOK P.permanent P.check_mode c = true := by
  obtain ⟨body, hb, ha⟩ := reconcileLoops_traceExt P s
  refine ⟨body, ?_, ha⟩
  simp only [reconcile]
  cases hp : P.permanent <;> simp [hp, hb]

/-! ## Composing the stages of the reconciliation body -/

theorem stage_compose {κ : Type} [DecidableEq κ] (K : KindSpec κ) (P : EffP)
    (l : List κ) (rest : RunState → RunState) (restSpec : Planes → Bool)
    (hrest : ∀ u : RunState, (rest u).changed = (u.changed || restSpec u.planes))
    (hrestInv : ∀ pl a b, restSpec (withKind K pl a b) = restSpec pl) :
    ∀ u : RunState, (rest (kindFold K P l u)).changed
      = (u.changed || ((l.any fun x => genContrib K P x u.planes)
          || restSpec u.planes)) := by
  intro u
  rw [hrest, kindFold_changed]
  obtain ⟨a, b, h⟩ : ∃ a b, (kindFold K P l u).planes = withKind K u.planes a b :=
    ⟨_, _, kindFold_planes_with K P l u⟩
  rw [h, hrestInv, Bool.or_assoc]

theorem stage_compose_toggle (T : ToggleSpec) (P : EffP) (v? : Option Bool)
    (rest : RunState → RunState) (restSpec : Planes → Bool)
    (hrest : ∀ u : RunState, (rest u).changed = (u.changed || restSpec u.planes))
    (hrestInv : ∀ pl a b, restSpec (withToggle T pl a b) = restSpec pl) :
    ∀ u : RunState,
      (rest (toggleStage T P v? u)).changed
        = (u.changed || ((match v? with
            | none => false
            | some v => toggleContrib T P v u.planes) || restSpec u.planes)) := by
  intro u
  cases v?
  · simp [toggleStage, hrest]
  · rename_i v
    simp only [toggleStage]
    rw [hrest, toggleStep_changed, toggleStep_planes_with T P v u, hrestInv,
      Bool.or_assoc]

theorem stage_compose_target (P : EffP) (t? : Option String)
    (rest : RunState → RunState) (restSpec : Planes → Bool)
    (hrest : ∀ u : RunState, (rest u).changed = (u.changed || restSpec u.planes))
    (hrestInv : ∀ pl a, restSpec { pl with permTarget := a } = restSpec pl) :
    ∀ u : RunState,
      (rest (targetStage P t? u)).changed
        = (u.changed || ((match t? with
            | none => false
            | some t => targetContrib P t u.planes) || restSpec u.planes)) := by
  intro u
  cases t?
  · simp [targetStage, hrest]
  · rename_i t
    simp only [targetStage]
    rw [hrest, targetStep_changed, targetStep_planes_with P t u, hrestInv,
      Bool.or_assoc]

/-- Master lemma: the aggregate `changed` flag the loops compute is the
disjunction of the per-entry disagreements against the initial plane
states. -/
theorem reconcileLoops_changed (P : EffP) (s : RunState) :
    (reconcileLoops P s).changed = (s.changed || changedSpec P s.planes) := by
  have h12 : ∀ u : RunState, (id u).changed = (u.changed || (fun _ : Planes => false) u.planes) := by
    intro u; simp
  have h11 := stage_compose_target P P.target id (fun _ => false) h12
    (fun pl a => rfl)
  have h10 := stage_compose_toggle icmpBlockInversionToggle P P.icmp_block_inversion _
    (fun pl => specTarget P pl || false) h11 (fun pl a b => rfl)
  have h9 := stage_compose icmpBlockKind P P.icmp_block _
    (fun pl => specIcmpBlockInversion P pl || (specTarget P pl || false)) h10
    (fun pl a b => rfl)
  have h8 := stage_compose interfaceKind P P.interface _
    (fun pl => specIcmpBlock P pl || (specIcmpBlockInversion P pl
      || (specTarget P pl || false))) h9 (fun pl a b => rfl)
  have h7 := stage_compose sourceKind P P.source _
    (fun pl => specInterface P pl || (specIcmpBlock P pl
      || (specIcmpBlockInversion P pl || (specTarget P pl || false)))) h8
    (fun pl a b => rfl)
  have h6 := stage_compose richRuleKind P P.rich_rule _
    (fun pl => specSource P pl || (specInterface P pl || (specIcmpBlock P pl
      || (specIcmpBlockInversion P pl || (specTarget P pl || false))))) h7
    (fun pl a b => rfl)
  have h5 := stage_compose_toggle masqueradeToggle P P.masquerade _
    (fun pl => specRichRule P pl || (specSource P pl || (specInterface P pl
      || (specIcmpBlock P pl || (specIcmpBlockInversion P pl
      || (specTarget P pl || false)))))) h6 (fun pl a b => rfl)
  have h4 := stage_compose forwardPortKind P P.forward_port _
    (fun pl => specMasquerade P pl || (specRichRule P pl || (specSource P pl
      || (specInterface P pl || (specIcmpBlock P pl
      || (specIcmpBlockInversion P pl || (specTarget P pl || false))))))) h5
    (fun pl a b => rfl)
  have h3 := stage_compose sourcePortKind P P.source_port _
    (fun pl => specForwardPort P pl || (specMasquerade P pl
      || (specRichRule P pl || (specSource P pl || (specInterface P pl
      || (specIcmpBlock P pl || (specIcmpBlockInversion P pl
      || (specTarget P pl || false)))))))) h4 (fun pl a b => rfl)
  have h2 := stage_compose portKind P P.port _
    (fun pl => specSourcePort P pl || (specForwardPort P pl
      || (specMasquerade P pl || (specRichRule P pl || (specSource P pl
      || (specInterface P pl || (specIcmpBlock P pl
      || (specIcmpBlockInversion P pl || (specTarget P pl || false))))))))) h3
    (fun pl a b => rfl)
  have h1 := stage_compose serviceKind P P.service _
    (fun pl => specPort P pl || (specSourcePort P pl || (specForwardPort P pl
      || (specMasquerade P pl || (specRichRule P pl || (specSource P pl
      || (specInterface P pl || (specIcmpBlock P pl
      || (specIcmpBlockInversion P pl || (specTarget P pl || false)))))))))) h2
    (fun pl a b => rfl)
  have hfin := h1 s
  simp only [id_eq] at hfin
  simp only [reconcileLoops]
  rw [hfin]
  simp [changedSpec, specService, specPort, specSourcePort, specForwardPort,
    specMasquerade, specRichRule, specSource, specInterface, specIcmpBlock,
    specIcmpBlockInversion, specTarget]

/-- The write-back stage does not alter `changed`. -/
theorem reconcile_changed (P : EffP) (s : RunState) :
    (reconcile P s).changed = (s.changed || changedSpec P s.planes) := by
  simp only [reconcile]
  cases hp : P.permanent <;> simp [hp, reconcileLoops_changed]

/-! ## Stage invariance of foreign contributions, and post-run agreement -/

theorem kindFold_g_inv {κ : Type} [DecidableEq κ] (K : KindSpec κ) (P : EffP)
    (l : List κ) (u : RunState) (g : Planes → Bool)
    (hg : ∀ pl a b, g (withKind K pl a b) = g pl) :
    g (kindFold K P l u).planes = g u.planes := by
  conv_lhs => rw [kindFold_planes_with K P l u]
  exact hg _ _ _

theorem toggleStage_g_inv (T : ToggleSpec) (P : EffP) (v? : Option Bool)
    (u : RunState) (g : Planes → Bool)
    (hg : ∀ pl a b, g (withToggle T pl a b) = g pl) :
    g (toggleStage T P v? u).planes = g u.planes := by
  cases v?
  · rfl
  · simp only [toggleStage]
    conv_lhs => rw [toggleStep_planes_with]
    exact hg _ _ _

theorem targetStage_g_inv (P : EffP) (t? : Option String) (u : RunState)
    (g : Planes → Bool) (hg : ∀ pl a, g { pl with permTarget := a } = g pl) :
    g (targetStage P t? u).planes = g u.planes := by
  cases t?
  · rfl
  · simp only [targetStage]
    conv_lhs => rw [targetStep_planes_with]
    exact hg _ _

theorem kindFold_post_any {κ : Type} [DecidableEq κ] (K : KindSpec κ) (P : EffP)
    (l : List κ) (u : RunState) (hen : P.state = .enabled)
    (hcm : P.check_mode = false) :
    (l.any fun x => genContrib K P x (kindFold K P l u).planes) = false := by
  rw [List.any_eq_false]
  intro x hx
  simp [kindFold_post_contrib K P l u hen hcm x hx]

theorem toggleStage_post (T : ToggleSpec) (P : EffP) (v? : Option Bool)
    (u : RunState) (hcm : P.check_mode = false) :
    (match v? with
      | none => false
      | some v => toggleContrib T P v (toggleStage T P v? u).planes) = false := by
  cases v?
  · rfl
  · simp only [toggleStage]
    exact toggleStep_post T P _ u hcm

theorem targetStage_post (P : EffP) (t? : Option String) (u : RunState)
    (hcm : P.check_mode = false) :
    (match t? with
      | none => false
      | some t => targetContrib P t (targetStage P t? u).planes) = false := by
  cases t?
  · rfl
  · simp only [targetStage]
    exact targetStep_post P _ u hcm

/-- After a non-check-mode enabled run, every entry of the request
agrees with the final plane states: no disagreement contribution
remains. -/
theorem reconcileLoops_post (P : EffP) (s : RunState) (hen : P.state = .enabled)
    (hcm : P.check_mode = false) :
    changedSpec P (reconcileLoops P s).planes = false := by
  simp only [reconcileLoops, changedSpec, Bool.or_eq_false_iff]
  refine ⟨?_, ?_, ?_, ?_, ?_, ?_, ?_, ?_, ?_, ?_, ?_⟩
  · rw [targetStage_g_inv P P.target _ (specService P) (fun pl a => rfl),
      toggleStage_g_inv icmpBlockInversionToggle P P.icmp_block_inversion _ (specService P) (fun pl a b => rfl),
      kindFold_g_inv icmpBlockKind P P.icmp_block _ (specService P) (fun pl a b => rfl),
      kindFold_g_inv interfaceKind P P.interface _ (specService P) (fun pl a b => rfl),
      kindFold_g_inv sourceKind P P.source _ (specService P) (fun pl a b => rfl),
      kindFold_g_inv richRuleKind P P.rich_rule _ (specService P) (fun pl a b => rfl),
      toggleStage_g_inv masqueradeToggle P P.masquerade _ (specService P) (fun pl a b => rfl),
      kindFold_g_inv forwardPortKind P P.forward_port _ (specService P) (fun pl a b => rfl),
      kindFold_g_inv sourcePortKind P P.source_port _ (specService P) (fun pl a b => rfl),
      kindFold_g_inv portKind P P.port _ (specService P) (fun pl a b => rfl)]
    exact kindFold_post_any serviceKind P P.service _ hen hcm
  · rw [targetStage_g_inv P P.target _ (specPort P) (fun pl a => rfl),
      toggleStage_g_inv icmpBlockInversionToggle P P.icmp_block_inversion _ (specPort P) (fun pl a b => rfl),
      kindFold_g_inv icmpBlockKind P P.icmp_block _ (specPort P) (fun pl a b => rfl),
      kindFold_g_inv interfaceKind P P.interface _ (specPort P) (fun pl a b => rfl),
      kindFold_g_inv sourceKind P P.source _ (specPort P) (fun pl a b => rfl),
      kindFold_g_inv richRuleKind P P.rich_rule _ (specPort P) (fun pl a b => rfl),
      toggleStage_g_inv masqueradeToggle P P.masquerade _ (specPort P) (fun pl a b => rfl),
      kindFold_g_inv forwardPortKind P P.forward_port _ (specPort P) (fun pl a b => rfl),
      kindFold_g_inv sourcePortKind P P.source_port _ (specPort P) (fun pl a b => rfl)]
    exact kindFold_post_any portKind P P.port _ hen hcm
  · rw [targetStage_g_inv P P.target _ (specSourcePort P) (fun pl a => rfl),
      toggleStage_g_inv icmpBlockInversionToggle P P.icmp_block_inversion _ (specSourcePort P) (fun pl a b => rfl),
      kindFold_g_inv icmpBlockKind P P.icmp_block _ (specSourcePort P) (fun pl a b => rfl),
      kindFold_g_inv interfaceKind P P.interface _ (specSourcePort P) (fun pl a b => rfl),
      kindFold_g_inv sourceKind P P.source _ (specSourcePort P) (fun pl a b => rfl),
      kindFold_g_inv richRuleKind P P.rich_rule _ (specSourcePort P) (fun pl a b => rfl),
      toggleStage_g_inv masqueradeToggle P P.masquerade _ (specSourcePort P) (fun pl a b => rfl),
      kindFold_g_inv forwardPortKind P P.forward_port _ (specSourcePort P) (fun pl a b => rfl)]
    exact kindFold_post_any sourcePortKind P P.source_port _ hen hcm
  · rw [targetStage_g_inv P P.target _ (specForwardPort P) (fun pl a => rfl),
      toggleStage_g_inv icmpBlockInversionToggle P P.icmp_block_inversion _ (specForwardPort P) (fun pl a b => rfl),
      kindFold_g_inv icmpBlockKind P P.icmp_block _ (specForwardPort P) (fun pl a b => rfl),
      kindFold_g_inv interfaceKind P P.interface _ (specForwardPort P) (fun pl a b => rfl),
      kindFold_g_inv sourceKind P P.source _ (specForwardPort P) (fun pl a b => rfl),
      kindFold_g_inv richRuleKind P P.rich_rule _ (specForwardPort P) (fun pl a b => rfl),
      toggleStage_g_inv masqueradeToggle P P.masquerade _ (specForwardPort P) (fun pl a b => rfl)]
    exact kindFold_post_any forwardPortKind P P.forward_port _ hen hcm
  · rw [targetStage_g_inv P P.target _ (specMasquerade P) (fun pl a => rfl),
      toggleStage_g_inv icmpBlockInversionToggle P P.icmp_block_inversion _ (specMasquerade P) (fun pl a b => rfl),
      kindFold_g_inv icmpBlockKind P P.icmp_block _ (specMasquerade P) (fun pl a b => rfl),
      kindFold_g_inv interfaceKind P P.interface _ (specMasquerade P) (fun pl a b => rfl),
      kindFold_g_inv sourceKind P P.source _ (specMasquerade P) (fun pl a b => rfl),
      kindFold_g_inv richRuleKind P P.rich_rule _ (specMasquerade P) (fun pl a b => rfl)]
    exact toggleStage_post masqueradeToggle P P.masquerade _ hcm
  · rw [targetStage_g_inv P P.target _ (specRichRule P) (fun pl a => rfl),
      toggleStage_g_inv icmpBlockInversionToggle P P.icmp_block_inversion _ (specRichRule P) (fun pl a b => rfl),
      kindFold_g_inv icmpBlockKind P P.icmp_block _ (specRichRule P) (fun pl a b => rfl),
      kindFold_g_inv interfaceKind P P.interface _ (specRichRule P) (fun pl a b => rfl),
      kindFold_g_inv sourceKind P P.source _ (specRichRule P) (fun pl a b => rfl)]
    exact kindFold_post_any richRuleKind P P.rich_rule _ hen hcm
  · rw [targetStage_g_inv P P.target _ (specSource P) (fun pl a => rfl),
      toggleStage_g_inv icmpBlockInversionToggle P P.icmp_block_inversion _ (specSource P) (fun pl a b => rfl),
      kindFold_g_inv icmpBlockKind P P.icmp_block _ (specSource P) (fun pl a b => rfl),
      kindFold_g_inv interfaceKind P P.interface _ (specSource P) (fun pl a b => rfl)]
    exact kindFold_post_any sourceKind P P.source _ hen hcm
  · rw [targetStage_g_inv P P.target _ (specInterface P) (fun pl a => rfl),
      toggleStage_g_inv icmpBlockInversionToggle P P.icmp_block_inversion _ (specInterface P) (fun pl a b => rfl),
      kindFold_g_inv icmpBlockKind P P.icmp_block _ (specInterface P) (fun pl a b => rfl)]
    exact kindFold_post_any interfaceKind P P.interface _ hen hcm
  · rw [targetStage_g_inv P P.target _ (specIcmpBlock P) (fun pl a => rfl),
      toggleStage_g_inv icmpBlockInversionToggle P P.icmp_block_inversion _ (specIcmpBlock P) (fun pl a b => rfl)]
    exact kindFold_post_any icmpBlockKind P P.icmp_block _ hen hcm
  · rw [targetStage_g_inv P P.target _ (specIcmpBlockInversion P) (fun pl a => rfl)]
    exact toggleStage_post icmpBlockInversionToggle P P.icmp_block_inversion _ hcm
  · exact targetStage_post P P.target _ hcm

/-- The write-back stage does not alter the plane states. -/
theorem reconcile_planes (P : EffP) (s : RunState) :
    (reconcile P s).planes = (reconcileLoops P s).planes := by
  simp only [reconcile]
  cases hp : P.permanent <;> simp [hp]

theorem reconcile_post (P : EffP) (s : RunState) (hen : P.state = .enabled)
    (hcm : P.check_mode = false) :
    changedSpec P (reconcile P s).planes = false := by
  rw [reconcile_planes]
  exact reconcileLoops_post P s hen hcm

/-! ## Plane silence: gated-off planes are never touched -/

/-- `s'` leaves the permanent plane (settings and target) of `s`
untouched. -/
def PermSilent (s s' : RunState) : Prop :=
  s'.planes.perm = s.planes.perm ∧ s'.planes.permTarget = s.planes.permTarget

theorem permSilent_refl (s : RunState) : PermSilent s s := ⟨rfl, rfl⟩

theorem permSilent_trans {s t u : RunState} (h1 : PermSilent s t)
    (h2 : PermSilent t u) : PermSilent s u :=
  ⟨h2.1.trans h1.1, h2.2.trans h1.2⟩

theorem genStep_perm_silent {κ : Type} [DecidableEq κ] (K : KindSpec κ) (P : EffP)
    (x : κ) (s : RunState) (hp : P.permanent = false) :
    PermSilent s (genStep K P x s) := by
  cases hst : P.state <;>
  · constructor <;>
      (simp only [genStep, hst, ensureClause_planes, hp] <;> split <;> split <;>
        simp_all)

theorem toggleStep_perm_silent (T : ToggleSpec) (P : EffP) (v : Bool) (s : RunState)
    (hp : P.permanent = false) :
    PermSilent s (toggleStep T P v s) := by
  cases v <;>
  · constructor <;>
      (simp only [toggleStep, ensureClause_planes, hp] <;> split <;> split <;>
        simp_all)

theorem targetStep_perm_silent (P : EffP) (t : String) (s : RunState)
    (hp : P.permanent = false) :
    targetStep P t s = s := by
  simp [targetStep, hp]

theorem reconcileLoops_perm_silent (P : EffP) (s : RunState)
    (hp : P.permanent = false) :
    PermSilent s (reconcileLoops P s) := by
  have hk : ∀ {κ : Type} (inst : DecidableEq κ) (K : KindSpec κ) (l : List κ)
      (s : RunState), PermSilent s (kindFold K P l s) :=
    fun _ K l s => foldl_invariant (fun x s => genStep K P x s) _
      permSilent_refl (fun _ _ _ => permSilent_trans)
      (fun x s => genStep_perm_silent K P x s hp) l s
  have ht : ∀ (T : ToggleSpec) (v? : Option Bool) (s : RunState),
      PermSilent s (toggleStage T P v? s) := by
    intro T v? s
    cases v?
    · exact permSilent_refl s
    · exact toggleStep_perm_silent T P _ s hp
  have htg : ∀ (t? : Option String) (s : RunState),
      PermSilent s (targetStage P t? s) := by
    intro t? s
    cases t?
    · exact permSilent_refl s
    · rw [show targetStage P (some _) s = targetStep P _ s from rfl,
        targetStep_perm_silent P _ s hp]
      exact permSilent_refl s
  simp only [reconcileLoops]
  exact permSilent_trans (hk _ serviceKind _ _)
    (permSilent_trans (hk _ portKind _ _)
    (permSilent_trans (hk _ sourcePortKind _ _)
    (permSilent_trans (hk _ forwardPortKind _ _)
    (permSilent_trans (ht masqueradeToggle P.masquerade _)
    (permSilent_trans (hk _ richRuleKind _ _)
    (permSilent_trans (hk _ sourceKind _ _)
    (permSilent_trans (hk _ interfaceKind _ _)
    (permSilent_trans (hk _ icmpBlockKind _ _)
    (permSilent_trans (ht icmpBlockInversionToggle P.icmp_block_inversion _)
      (htg P.target _))))))))))

theorem reconcile_perm_silent (P : EffP) (s : RunState) (hp : P.permanent = false) :
    PermSilent s (reconcile P s) := by
  have h := reconcileLoops_perm_silent P s hp
  have hpl := reconcile_planes P s
  exact ⟨by rw [hpl]; exact h.1, by rw [hpl]; exact h.2⟩

/-- A kind whose runtime clause is gated off leaves the runtime plane
untouched. -/
theorem genStep_rt_silent {κ : Type} [DecidableEq κ] (K : KindSpec κ) (P : EffP)
    (x : κ) (s : RunState) (hg : K.rtGate P = false) :
    (genStep K P x s).planes.rt = s.planes.rt := by
  cases hst : P.state <;>
    (simp only [genStep, hst, ensureClause_planes, hg] <;> split <;> split <;>
      simp_all)

/-! ## Filtering traces through extensions -/

theorem filter_append_none (l ext : List Call) (f : Call → Bool)
    (h : ∀ c ∈ ext, f c = false) :
    (l ++ ext).filter f = l.filter f := by
  rw [List.filter_append]
  have : ext.filter f = [] := by
    rw [List.filter_eq_nil_iff]
    intro c hc
    simp [h c hc]
  rw [this, List.append_nil]

theorem traceExt_filter {ok : Call → Bool} {s s' : RunState} (h : TraceExt ok s s')
    (f : Call → Bool) (himp : ∀ c, ok c = true → f c = false) :
    s'.trace.filter f = s.trace.filter f := by
  obtain ⟨ext, he, ha⟩ := h
  rw [he]
  exact filter_append_none _ _ _ (fun c hc => himp c (ha c hc))

/-! ## Lemmas about the prelude and the entry point -/

theorem effectiveSetup_ok_cases (p : FWParams) (w : World) (P : EffP)
    (h : effectiveSetup p w = .ok P) :
    P = mkEff p false true
      ∨ P = mkEff p true (truthy p.permanent)
      ∨ P = mkEff p (truthy p.runtime) (truthy p.permanent) := by
  simp only [effectiveSetup] at h
  repeat' split at h
  all_goals try (simp only [reduceCtorEq] at h)
  all_goals have h' := (Except.ok.inj h).symm
  all_goals first
    | exact Or.inl h'
    | exact Or.inr (Or.inl h')
    | exact Or.inr (Or.inr h')

theorem effectiveSetup_state (p : FWParams) (w : World) (P : EffP)
    (h : effectiveSetup p w = .ok P) :
    P.state = p.state ∧ P.check_mode = p.check_mode := by
  rcases effectiveSetup_ok_cases p w P h with h' | h' | h' <;> subst h' <;>
    exact ⟨rfl, rfl⟩

theorem effectiveSetup_withPlanes (p : FWParams) (w : World) (pl : Planes) :
    effectiveSetup p (World.withPlanes w pl) = effectiveSetup p w := rfl

theorem firewallMain_error (p : FWParams) (w : World) (e : FWErr)
    (h : effectiveSetup p w = .error e) :
    firewallMain p w = { outcome := .error e, trace := [], planes := w.planes } := by
  unfold firewallMain
  rw [h]

theorem firewallMain_outcome_ok (p : FWParams) (w : World) (P : EffP)
    (h : effectiveSetup p w = .ok P) :
    (firewallMain p w).outcome = .ok (changedSpec P w.planes) := by
  unfold firewallMain
  rw [h]
  simp [reconcile_changed]

theorem firewallMain_planes_ok (p : FWParams) (w : World) (P : EffP)
    (h : effectiveSetup p w = .ok P) :
    (firewallMain p w).planes
      = (reconcile P { planes := w.planes, changed := false, trace := [] }).planes := by
  unfold firewallMain
  rw [h]

theorem firewallMain_trace_ok (p : FWParams) (w : World) (P : EffP)
    (h : effectiveSetup p w = .ok P) :
    (firewallMain p w).trace
      = (reconcile P { planes := w.planes, changed := false, trace := [] }).trace := by
  unfold firewallMain
  rw [h]

/-- `mkEff` ignores the request's `check_mode` except to copy it. -/
theorem mkEff_cm (p : FWParams) (r pm b : Bool) :
    mkEff { p with check_mode := b } r pm = { mkEff p r pm with check_mode := b } := rfl

/-- `changedSpec` does not depend on check mode. -/
theorem changedSpec_cm (P : EffP) (pl : Planes) (b : Bool) :
    changedSpec { P with check_mode := b } pl = changedSpec P pl := rfl

theorem effectiveSetup_cm (p : FWParams) (w : World) (b : Bool) :
    effectiveSetup { p with check_mode := b } w
      = (effectiveSetup p w).map (fun P => { P with check_mode := b }) := by
  simp only [effectiveSetup]
  rw [show validateParams { p with check_mode := b } = validateParams p from rfl]
  cases hval : validateParams p
  all_goals dsimp only
  all_goals repeat' split
  all_goals rfl

theorem bodyCallOK_not_commit (pm cm : Bool) (c : Call)
    (h : bodyCallOK pm cm c = true) : isCommit c = false := by
  cases c <;> simp_all [bodyCallOK, isCommit]

theorem bodyCallOK_dry_no_mutation (pm : Bool) (c : Call)
    (h : bodyCallOK pm true c = true) : isMutating c = false := by
  cases c <;> simp_all [bodyCallOK, isCommit, isMutating]

theorem bodyCallOK_perm_off (cm : Bool) (c : Call)
    (h : bodyCallOK false cm c = true) : onPermanent c = false := by
  cases c <;> simp_all [bodyCallOK, isCommit, onPermanent]

theorem gateCallOK_perm_off (rtg cm : Bool) (c : Call)
    (h : gateCallOK rtg false cm c = true) : onPermanent c = false := by
  cases c <;> simp_all [gateCallOK, isCommit, onPermanent]

theorem gateCallOK_rt_off (pm cm : Bool) (c : Call)
    (h : gateCallOK false pm cm c = true) : onRuntime c = false := by
  cases c <;> simp_all [gateCallOK, isCommit, onRuntime]

/-- When `permanent` is unset and the backend is connected, the
effective flags are runtime on (forced by lines 271-272) and permanent
off. -/
theorem effectiveSetup_permanent_none (p : FWParams) (w : World) (P : EffP)
    (hperm : p.permanent = none) (hconn : w.connected = true)
    (h : effectiveSetup p w = .ok P) :
    P.runtime = true ∧ P.permanent = false := by
  simp [effectiveSetup, hconn, hperm] at h
  repeat' split at h
  all_goals try (simp only [reduceCtorEq] at h)
  have h' := (Except.ok.inj h).symm
  subst h'
  constructor <;> rfl

/-! ## Concrete fixtures for the claim witnesses -/

/-- A zone with nothing configured. -/
def emptyZone : ZoneState :=
  { services := [], ports := [], sourcePorts := [], forwardPorts := []
    masquerade := false, richRules := [], sources := [], interfaces := []
    icmpBlocks := [], icmpBlockInversion := false }

/-- Request with the argument_spec defaults (lines 209-234); `state` is
the one required parameter. -/
def defaultParams (st : PresenceSt) : FWParams :=
  { service := [], port := [], source_port := [], forward_port := []
    masquerade := none, rich_rule := [], source := [], interface := []
    icmp_block := [], icmp_block_inversion := none, timeout := 0
    target := none, zone := none, permanent := none, runtime := none
    offline := none, state := st, check_mode := false }

/-- A healthy connected environment over the given plane states. -/
def testWorld (pl : Planes) : World :=
  { hasFirewalld := true, connected := true, connectedVersionOk := true
    offlineVersionOk := true, defaultZone := "public"
    runtimeZones := ["public"], permanentZones := ["public"], planes := pl }

/-! ## Claim C1 -/

/-- Runtime-plane service removal fixture: `state=disabled`,
`permanent` unset (so runtime is forced on), and the service present on
the runtime plane. -/
def c1Params : FWParams := { defaultParams .disabled with service := ["https"] }

/-- World for C1: `https` enabled on the runtime plane. -/
def c1World : World :=
  testWorld { rt := { emptyZone with services := ["https"] }, perm := emptyZone,
              permTarget := "default" }

/-- C1: the claim states that every add/remove that actually executes
sets `changed = true`, and in particular that a runtime-plane service
removal under `state=disabled` does.  The code violates this: lines
438-440 execute `fw.removeService` but, uniquely among all add/remove
branches, never set `changed = True`.  At this input the removal call
is issued (and the service really disappears from the runtime plane),
yet the module exits with `changed=false`. -/
theorem c1_runtime_service_removal_not_reported :
    (firewallMain c1Params c1World).outcome = .ok false
      ∧ Call.remove .runtime (.service "https") ∈ (firewallMain c1Params c1World).trace
      ∧ (firewallMain c1Params c1World).planes.rt.services = [] := by
  refine ⟨?_, ?_, ?_⟩ <;> decide

/-! ## Claim C3 -/

/-- C3: the claim states `parse_port` splits on the last `/` and fails
with the module's `FormatError` when no protocol segment is present.
The positive example holds, but on `"80"` the code raises a Python
tuple-unpacking `ValueError` (a crash), not the `fail_json` format
error: the `if _protocol is None` guard of line 182 is unreachable. -/
theorem c3_parse_port_missing_protocol_crashes :
    parse_port "80-82/tcp" = .ok ("80-82", "tcp")
      ∧ parse_port "80" = .error .valueError
      ∧ ∀ msg : String, parse_port "80" ≠ .error (.formatError msg) := by
  refine ⟨by decide, by decide, ?_⟩
  intro msg h
  rw [show parse_port "80" = .error .valueError from by decide] at h
  exact ParseFailure.noConfusion (Except.error.inj h)

/-! ## Claim C4 -/

/-- Counterexample input for C4: `permanent` explicitly false while
`runtime` and `offline` are left unset. -/
def c4CounterParams : FWParams :=
  { defaultParams .enabled with service := ["https"], permanent := some false }

/-- C4 counterexample: the claim says this request must fail with
`NoPlaneSelected`; the code's condition
`(runtime is not None and not runtime) and (offline is not None and not offline)`
(lines 274-276) is false when the flags are unset, so validation
passes and the module runs to completion. -/
theorem c4_counterexample :
    validateParams c4CounterParams = none
      ∧ (firewallMain c4CounterParams
          (testWorld { rt := emptyZone, perm := emptyZone, permTarget := "default" })).outcome
        = .ok false := by
  constructor <;> decide

/-- C4 (amended): validation fails with `NoPlaneSelected` exactly when
`permanent`, `runtime` and `offline` are all three explicitly set to
false; merely leaving `runtime`/`offline` unset does not trigger it.
When `permanent` is unset the request defaults to runtime-only: the
effective parameters have the runtime plane active and the permanent
plane inactive. -/
theorem c4_plane_selection_amended (p : FWParams) :
    (validateParams p = some .noPlaneSelected
      ↔ (p.permanent = some false ∧ p.runtime = some false ∧ p.offline = some false))
  ∧ (p.permanent = none → ∀ (w : World) (P : EffP), w.connected = true →
      effectiveSetup p w = .ok P → P.runtime = true ∧ P.permanent = false) := by
  constructor
  · constructor
    · intro h
      by_cases hps : planeSelectionFails p = true
      · simpa [planeSelectionFails, and_assoc] using hps
      · exfalso
        unfold validateParams at h
        rw [if_neg (by simp [hps])] at h
        repeat' split at h
        all_goals simp_all
    · rintro ⟨h1, h2, h3⟩
      simp [validateParams, planeSelectionFails, h1, h2, h3]
  · intro hperm w P hconn hsetup
    exact effectiveSetup_permanent_none p w P hperm hconn hsetup

/-- Witness input for the first part of C4: all three flags explicitly
false. -/
def c4WitnessParams : FWParams :=
  { defaultParams .enabled with
    service := ["https"]
    permanent := some false
    runtime := some false
    offline := some false }

/-- C4 witness: the amended plane-selection rule fires at a concrete
input. -/
theorem c4_plane_selection_amended_witness :
    validateParams c4WitnessParams = some .noPlaneSelected :=
  (c4_plane_selection_amended c4WitnessParams).1.mpr (by decide)

/-! ## Claim C5 -/

/-- C5: among requests with a positive timeout that reach the
timeout-scoping rule (the earlier validation rules — plane selection,
empty request, disabled-state restrictions — do not fire; with a
positive timeout the disabled-state rule is equivalent to requiring
`state=enabled`), validation fails with `TimeoutNotApplicable` exactly
when no timeout-bearing kind is present (`_timeout_ok` false) and at
least one of `icmp_block_inversion`, `source`, `interface`, `target`
is set. -/
theorem c5_timeout_scoping (p : FWParams) (ht : 0 < p.timeout)
    (hplane : planeSelectionFails p = false)
    (hempty : emptyRequestFails p = false)
    (hen : p.state = .enabled) :
    validateParams p = some .timeoutNotApplicable
      ↔ (timeoutOk p = false
          ∧ (p.icmp_block_inversion ≠ none ∨ p.source ≠ [] ∨ p.interface ≠ []
              ∨ p.target ≠ none)) := by
  unfold validateParams
  rw [if_neg (by simp [hplane]), if_neg (by simp [hempty]),
    if_neg (by simp [hen])]
  split
  case isTrue h4 =>
    simp only [Bool.and_eq_true, Bool.or_eq_true, Bool.not_eq_true',
      decide_eq_true_eq] at h4
    simp only [true_iff]
    refine ⟨h4.1.2, ?_⟩
    tauto
  case isFalse h4 =>
    simp only [Bool.and_eq_true, Bool.or_eq_true, Bool.not_eq_true',
      decide_eq_true_eq, not_and, not_or] at h4
    simp only [reduceCtorEq, false_iff, not_and, not_or]
    intro hok
    have := h4 ⟨by simpa using ht, hok⟩
    tauto

/-- Witness input for C5: timeout 5 with only a `source` entry. -/
def c5WitnessParams : FWParams :=
  { defaultParams .enabled with timeout := 5, source := ["192.0.2.0/24"] }

/-- C5 witness: at a concrete source-only request with a positive
timeout, validation fails with `TimeoutNotApplicable`. -/
theorem c5_timeout_scoping_witness :
    validateParams c5WitnessParams = some .timeoutNotApplicable :=
  (c5_timeout_scoping c5WitnessParams (by decide) (by decide) (by decide)
    (by decide)).mpr (by decide)

/-! ## Claim C9 -/

/-- C9: with `state=disabled`, any of a positive timeout, a true
masquerade toggle, or a true icmp_block_inversion toggle makes
validation fail with `IncompatibleWithDisabled` (among requests the
earlier plane-selection and empty-request rules let through), and the
whole module invocation aborts with that error having issued zero
plane-accessor calls and leaving the plane states untouched — the
failure is decided before the backend is even consulted. -/
theorem c9_disabled_validation_boundary (p : FWParams)
    (hdis : p.state = .disabled)
    (hplane : planeSelectionFails p = false)
    (hempty : emptyRequestFails p = false)
    (htrig : 0 < p.timeout ∨ p.masquerade = some true
      ∨ p.icmp_block_inversion = some true) :
    validateParams p = some .incompatibleWithDisabled
      ∧ ∀ w : World, w.hasFirewalld = true →
          firewallMain p w
            = { outcome := .error (.validation .incompatibleWithDisabled),
                trace := [], planes := w.planes } := by
  have hv : validateParams p = some .incompatibleWithDisabled := by
    unfold validateParams
    rw [if_neg (by simp [hplane]), if_neg (by simp [hempty]), if_pos]
    simp only [Bool.and_eq_true, Bool.or_eq_true, decide_eq_true_eq]
    refine ⟨hdis, ?_⟩
    rcases htrig with h | h | h
    · exact Or.inl (Or.inl (by simpa using h))
    · exact Or.inl (Or.inr (by simp [truthy, h]))
    · exact Or.inr (by simp [truthy, h])
  refine ⟨hv, ?_⟩
  intro w hfw
  apply firewallMain_error
  simp [effectiveSetup, hfw, hv]

/-- Witness input for C9: `state=disabled` with `timeout=5`. -/
def c9WitnessParams : FWParams :=
  { defaultParams .disabled with service := ["https"], timeout := 5 }

/-- C9 witness: the disabled-state boundary at a concrete input. -/
theorem c9_disabled_validation_boundary_witness :
    firewallMain c9WitnessParams
        (testWorld { rt := emptyZone, perm := emptyZone, permTarget := "default" })
      = { outcome := .error (.validation .incompatibleWithDisabled),
          trace := [],
          planes := { rt := emptyZone, perm := emptyZone, permTarget := "default" } } :=
  (c9_disabled_validation_boundary c9WitnessParams (by decide) (by decide)
      (by decide) (Or.inl (by decide))).2
    (testWorld { rt := emptyZone, perm := emptyZone, permTarget := "default" }) rfl

/-! ## Claim C6 -/

/-- C6: whenever the prelude succeeds, the invocation issues exactly
one `commit` (the buffered zone-settings write-back of lines 661-666)
when the Permanent plane is active — as the last call, after all
rule-kind loops — and none at all when it is not, regardless of how
many add/remove calls preceded it. -/
theorem c6_commit_batching (p : FWParams) (w : World) (P : EffP)
    (h : effectiveSetup p w = .ok P) :
    (P.permanent = true →
      ∃ pre, (firewallMain p w).trace = pre ++ [Call.commit]
        ∧ ∀ c ∈ pre, isCommit c = false)
  ∧ (P.permanent = false →
      ∀ c ∈ (firewallMain p w).trace, isCommit c = false) := by
  rw [firewallMain_trace_ok p w P h]
  obtain ⟨body, hb, ha⟩ :=
    reconcile_trace P { planes := w.planes, changed := false, trace := [] }
  constructor
  · intro hp
    refine ⟨body, ?_, ?_⟩
    · rw [hb, hp]
      simp
    · intro c hc
      exact bodyCallOK_not_commit P.permanent P.check_mode c (ha c hc)
  · intro hp
    intro c hc
    rw [hb, hp] at hc
    simp at hc
    exact bodyCallOK_not_commit P.permanent P.check_mode c (ha c hc)

/-- Witness input for C6: three permanent-plane rule kinds in one
request. -/
def c6WitnessParams : FWParams :=
  { defaultParams .enabled with
    service := ["https"]
    port := [("80", "tcp")]
    rich_rule := ["rule1"]
    permanent := some true
    runtime := some false }

/-- Effective parameters of the C6 witness request. -/
def c6WitnessEff : EffP := mkEff c6WitnessParams false true

/-- C6 witness: a request touching three permanent rule kinds records
exactly one commit, as the last call. -/
theorem c6_commit_batching_witness :
    ∃ pre, (firewallMain c6WitnessParams
        (testWorld { rt := emptyZone, perm := emptyZone, permTarget := "default" })).trace
      = pre ++ [Call.commit] ∧ ∀ c ∈ pre, isCommit c = false :=
  (c6_commit_batching c6WitnessParams
    (testWorld { rt := emptyZone, perm := emptyZone, permTarget := "default" })
    c6WitnessEff (by decide)).1 rfl

/-! ## Claim C7 -/

/-- C7: for any request with `state=enabled` applied for real (no check
mode) through a successful prelude, the first invocation reports
`changed` exactly when some entry initially disagrees with an active
plane (`changedSpec` is precisely the code's per-entry disagreement
disjunction, so any initial disagreement yields `changed=true`), and a
second invocation against the planes the first one produced reports
`changed=false`: reconciliation is idempotent. -/
theorem c7_idempotence (p : FWParams) (w : World) (P : EffP)
    (hen : p.state = .enabled) (hcm : p.check_mode = false)
    (h : effectiveSetup p w = .ok P) :
    (firewallMain p w).outcome = .ok (changedSpec P w.planes)
      ∧ (firewallMain p (World.withPlanes w (firewallMain p w).planes)).outcome
          = .ok false := by
  obtain ⟨hst, hc⟩ := effectiveSetup_state p w P h
  constructor
  · exact firewallMain_outcome_ok p w P h
  · have h2 : effectiveSetup p (World.withPlanes w (firewallMain p w).planes) = .ok P := by
      rw [effectiveSetup_withPlanes]
      exact h
    rw [firewallMain_outcome_ok _ _ P h2]
    rw [firewallMain_planes_ok p w P h]
    have hpost := reconcile_post P { planes := w.planes, changed := false, trace := [] }
      (hst.trans hen) (hc.trans hcm)
    simp [World.withPlanes, hpost]

/-- Witness input for C7: a runtime-plane service not yet enabled. -/
def c7WitnessParams : FWParams :=
  { defaultParams .enabled with service := ["https"] }

/-- World for the C7 witness: empty planes. -/
def c7WitnessWorld : World :=
  testWorld { rt := emptyZone, perm := emptyZone, permTarget := "default" }

/-- C7 witness: first run reports a change, the immediate re-run does
not. -/
theorem c7_idempotence_witness :
    (firewallMain c7WitnessParams c7WitnessWorld).outcome = .ok true
      ∧ (firewallMain c7WitnessParams
          (World.withPlanes c7WitnessWorld
            (firewallMain c7WitnessParams c7WitnessWorld).planes)).outcome
        = .ok false := by
  have h := c7_idempotence c7WitnessParams c7WitnessWorld
    (mkEff c7WitnessParams true false) rfl rfl (by decide)
  refine ⟨?_, h.2⟩
  rw [h.1]
  decide

/-! ## Claim C2 -/

/-- A healthy world over empty planes. -/
def plainWorld : World :=
  testWorld { rt := emptyZone, perm := emptyZone, permTarget := "default" }

/-- Dry-run permanent-plane request for the C2 counterexample. -/
def c2DryParams : FWParams :=
  { defaultParams .enabled with
    service := ["https"]
    permanent := some true
    runtime := some false
    check_mode := true }

/-- Duplicate-entry request for the C2 counterexample, parameterized by
check mode. -/
def c2DupParams (cm : Bool) : FWParams :=
  { defaultParams .enabled with service := ["ssh", "ssh"], check_mode := cm }

/-- C2 counterexample: the claim says a dry run issues no commit call
and returns the same query results as a real run.  But the permanent
write-back of lines 661-666 is not guarded by `module.check_mode`, so
the dry run still issues the commit; and with a duplicate entry the
real run's second query sees the first mutation while the dry run's
does not, so the recorded query results differ. -/
theorem c2_counterexample :
    Call.commit ∈ (firewallMain c2DryParams plainWorld).trace
      ∧ (firewallMain (c2DupParams true) plainWorld).trace.filter isQuery
          ≠ (firewallMain (c2DupParams false) plainWorld).trace.filter isQuery := by
  constructor <;> decide

/-- C2 (amended): a dry-run invocation returns the same outcome (in
particular the same `changed` value) as the otherwise-identical real
invocation from the same state, and issues no add, remove or setTarget
call; however, when the Permanent plane is active the permanent-plane
settings write-back (commit) is still issued even under dry run, and
individual query results may differ once the real run has mutated a
plane (e.g. with duplicate entries). -/
theorem c2_dry_run_amended (p : FWParams) (w : World) :
    (firewallMain { p with check_mode := true } w).outcome
      = (firewallMain { p with check_mode := false } w).outcome
  ∧ (∀ c ∈ (firewallMain { p with check_mode := true } w).trace,
      isMutating c = false)
  ∧ (∀ P : EffP, effectiveSetup p w = .ok P → P.permanent = true →
      Call.commit ∈ (firewallMain { p with check_mode := true } w).trace) := by
  have ht := effectiveSetup_cm p w true
  have hf := effectiveSetup_cm p w false
  cases hs : effectiveSetup p w with
  | error e =>
    rw [hs] at ht hf
    simp only [Except.map] at ht hf
    rw [firewallMain_error _ _ e ht, firewallMain_error _ _ e hf]
    refine ⟨rfl, ?_, ?_⟩
    · intro c hc
      simp at hc
    · intro P hP
      exact Except.noConfusion hP
  | ok P0 =>
    rw [hs] at ht hf
    simp only [Except.map] at ht hf
    refine ⟨?_, ?_, ?_⟩
    · rw [firewallMain_outcome_ok _ _ _ ht, firewallMain_outcome_ok _ _ _ hf,
        changedSpec_cm]
      exact congrArg Except.ok (changedSpec_cm P0 w.planes false).symm
    · rw [firewallMain_trace_ok _ _ _ ht]
      obtain ⟨body, hb, ha⟩ := reconcile_trace { P0 with check_mode := true }
        { planes := w.planes, changed := false, trace := [] }
      intro c hc
      rw [hb] at hc
      simp only [List.nil_append] at hc
      rcases List.mem_append.mp hc with h | h
      · exact bodyCallOK_dry_no_mutation _ c (ha c h)
      · split at h
        · simp at h
          subst h
          rfl
        · simp at h
    · intro P hP hperm
      injection hP with hP
      subst hP
      rw [firewallMain_trace_ok _ _ _ ht]
      obtain ⟨body, hb, ha⟩ := reconcile_trace { P0 with check_mode := true }
        { planes := w.planes, changed := false, trace := [] }
      rw [hb]
      have hp' : ({ P0 with check_mode := true } : EffP).permanent = true := hperm
      simp [hp']
      exact Or.inr hperm

/-- Request for the C2 witness: permanent-only service enablement. -/
def c2WitnessParams : FWParams :=
  { defaultParams .enabled with
    service := ["https"]
    permanent := some true
    runtime := some false }

/-- C2 witness: at a concrete permanent-plane request, the dry run
still issues the commit. -/
theorem c2_dry_run_amended_witness :
    Call.commit ∈ (firewallMain { c2WitnessParams with check_mode := true }
      plainWorld).trace :=
  (c2_dry_run_amended c2WitnessParams plainWorld).2.2
    (mkEff c2WitnessParams false true) (by decide) rfl

/-! ## Claim C8 -/

/-- C8: the `source` loop (lines 564-583) is the one rule kind whose
runtime-plane clause is not gated on the `runtime` flag: its step is
literally independent of the flag, it always issues the runtime
presence query and, on disagreement outside check mode, the runtime
add/remove; its permanent-plane clause stays gated on `permanent`.
Every other keyed kind's runtime gate is the `runtime` flag, and a kind
whose runtime gate is off leaves the runtime plane untouched and issues
no runtime-plane call. -/
theorem c8_source_runtime_ungated :
    (∀ (P : EffP) (b : Bool) (x : String) (s : RunState),
        genStep sourceKind { P with runtime := b } x s = genStep sourceKind P x s)
  ∧ (∀ (P : EffP) (x : String) (s : RunState),
        Call.query .runtime (.source x) (memB s.planes.rt.sources x)
          ∈ (genStep sourceKind P x s).trace)
  ∧ (∀ (P : EffP) (x : String) (s : RunState), P.check_mode = false →
        memB s.planes.rt.sources x = false → P.state = .enabled →
        Call.add .runtime (.source x) none ∈ (genStep sourceKind P x s).trace)
  ∧ (∀ (P : EffP) (x : String) (s : RunState), P.check_mode = false →
        memB s.planes.rt.sources x = true → P.state = .disabled →
        Call.remove .runtime (.source x) ∈ (genStep sourceKind P x s).trace)
  ∧ (∀ (P : EffP) (x : String) (s : RunState), P.permanent = false →
        PermSilent s (genStep sourceKind P x s)
          ∧ (genStep sourceKind P x s).trace.filter onPermanent
              = s.trace.filter onPermanent)
  ∧ (∀ P : EffP,
        serviceKind.rtGate P = P.runtime ∧ portKind.rtGate P = P.runtime
          ∧ sourcePortKind.rtGate P = P.runtime
          ∧ forwardPortKind.rtGate P = P.runtime
          ∧ richRuleKind.rtGate P = P.runtime
          ∧ interfaceKind.rtGate P = P.runtime
          ∧ icmpBlockKind.rtGate P = P.runtime
          ∧ sourceKind.rtGate P = true)
  ∧ (∀ {κ : Type} [inst : DecidableEq κ] (K : KindSpec κ) (P : EffP) (x : κ)
        (s : RunState), K.rtGate P = false →
        (genStep K P x s).planes.rt = s.planes.rt
          ∧ (genStep K P x s).trace.filter onRuntime = s.trace.filter onRuntime) := by
  refine ⟨?_, ?_, ?_, ?_, ?_, ?_, ?_⟩
  · intro P b x s
    rfl
  · intro P x s
    cases hst : P.state <;>
      (simp only [genStep, hst] <;>
        rw [ensureClause_trace, ensureClause_trace] <;>
        simp [clauseCalls, sourceKind])
  · intro P x s hcm hmem hst
    simp only [genStep, hst]
    rw [ensureClause_trace, ensureClause_trace]
    simp [clauseCalls, sourceKind, hcm, hmem]
  · intro P x s hcm hmem hst
    simp only [genStep, hst]
    rw [ensureClause_trace, ensureClause_trace]
    simp [clauseCalls, sourceKind, hcm, hmem]
  · intro P x s hp
    refine ⟨genStep_perm_silent sourceKind P x s hp, ?_⟩
    refine traceExt_filter (genStep_traceExt sourceKind P x s) onPermanent ?_
    intro c hc
    rw [hp] at hc
    exact gateCallOK_perm_off _ _ c hc
  · intro P
    exact ⟨rfl, rfl, rfl, rfl, rfl, rfl, rfl, rfl⟩
  · intro κ inst K P x s hg
    refine ⟨genStep_rt_silent K P x s hg, ?_⟩
    refine traceExt_filter (genStep_traceExt K P x s) onRuntime ?_
    intro c hc
    rw [hg] at hc
    exact gateCallOK_rt_off _ _ c hc

/-- Effective parameters for the C8 witness: runtime flag off. -/
def c8WitnessEff : EffP := mkEff (defaultParams .enabled) false false

/-- Run state for the C8 witness. -/
def c8WitnessState : RunState :=
  { planes := { rt := emptyZone, perm := emptyZone, permTarget := "default" },
    changed := false, trace := [] }

/-- C8 witness: with the runtime flag off, the source step still issues
its runtime query. -/
theorem c8_source_runtime_ungated_witness :
    Call.query .runtime (.source "192.0.2.1") false
      ∈ (genStep sourceKind c8WitnessEff "192.0.2.1" c8WitnessState).trace := by
  have h := c8_source_runtime_ungated.2.1 c8WitnessEff "192.0.2.1" c8WitnessState
  rw [show memB c8WitnessState.planes.rt.sources "192.0.2.1" = false from by decide] at h
  exact h

/-! ## Claim C10 -/

/-- Offline-fallback input for the C10 counterexample: `permanent`
unset, firewalld not running, `offline` enabled. -/
def c10CounterParams : FWParams :=
  { defaultParams .enabled with
    service := ["https"]
    runtime := some false
    offline := some true }

/-- Disconnected world for the C10 counterexample. -/
def c10CounterWorld : World := { plainWorld with connected := false }

/-- C10 counterexample: the claim says that with `permanent` unset the
permanent plane is never touched.  Under the offline fallback (lines
350-361) the code overrides the flags to runtime off / permanent on,
and the run mutates and commits the permanent plane. -/
theorem c10_counterexample :
    Call.commit ∈ (firewallMain c10CounterParams c10CounterWorld).trace
      ∧ Call.add .permanent (.service "https") none
          ∈ (firewallMain c10CounterParams c10CounterWorld).trace := by
  constructor <;> decide

/-- C10 (amended): when `permanent` is unset and the backend is
connected, the `runtime` flag is irrelevant — the whole invocation is
unchanged whatever the caller set it to, because lines 271-272 force it
to true — and the permanent plane is never touched: no permanent-plane
call (query, add, remove, getTarget, setTarget or commit) appears in
the trace and the permanent settings and zone target are left exactly
as they were.  (When the backend is not connected and `offline` is
enabled, the offline fallback instead forces permanent on and does
commit.) -/
theorem c10_permanent_unset_amended (p : FWParams) (w : World)
    (hperm : p.permanent = none) (hconn : w.connected = true) :
    (∀ b : Option Bool, firewallMain { p with runtime := b } w = firewallMain p w)
  ∧ (firewallMain p w).trace.filter onPermanent = []
  ∧ (firewallMain p w).planes.perm = w.planes.perm
  ∧ (firewallMain p w).planes.permTarget = w.planes.permTarget := by
  have hval : ∀ b : Option Bool,
      validateParams { p with runtime := b } = validateParams p := by
    intro b
    unfold validateParams planeSelectionFails emptyRequestFails timeoutOk
      FWParams.timeoutOkSum FWParams.entryCount
    simp [hperm]
  have hsetup : ∀ b : Option Bool,
      effectiveSetup { p with runtime := b } w = effectiveSetup p w := by
    intro b
    simp only [effectiveSetup]
    rw [hval b]
    simp [hperm, mkEff]
  refine ⟨?_, ?_⟩
  · intro b
    unfold firewallMain
    rw [hsetup b]
  · cases hs : effectiveSetup p w with
    | error e =>
      rw [firewallMain_error p w e hs]
      exact ⟨rfl, rfl, rfl⟩
    | ok P =>
      obtain ⟨hrt, hp⟩ := effectiveSetup_permanent_none p w P hperm hconn hs
      rw [firewallMain_trace_ok p w P hs, firewallMain_planes_ok p w P hs]
      obtain ⟨body, hb, ha⟩ :=
        reconcile_trace P { planes := w.planes, changed := false, trace := [] }
      refine ⟨?_, (reconcile_perm_silent P _ hp).1, (reconcile_perm_silent P _ hp).2⟩
      rw [hb, hp]
      simp only [List.nil_append, if_false, Bool.false_eq_true, List.append_nil]
      rw [List.filter_eq_nil_iff]
      intro c hc
      have := bodyCallOK_perm_off P.check_mode c (by rw [← hp]; exact ha c hc)
      simp [this]

/-- Request for the C10 witness: `permanent` unset, caller explicitly
sets `runtime` false. -/
def c10WitnessParams : FWParams :=
  { defaultParams .enabled with service := ["https"], runtime := some false }

/-- C10 witness: at a concrete connected request with `permanent`
unset, explicitly disabling `runtime` changes nothing and the permanent
plane stays untouched. -/
theorem c10_permanent_unset_amended_witness :
    firewallMain { c10WitnessParams with runtime := some false } plainWorld
        = firewallMain c10WitnessParams plainWorld
      ∧ (firewallMain c10WitnessParams plainWorld).trace.filter onPermanent = [] :=
  ⟨(c10_permanent_unset_amended c10WitnessParams plainWorld rfl rfl).1 (some false),
    (c10_permanent_unset_amended c10WitnessParams plainWorld rfl rfl).2.1⟩

end FirewallLib
